import Mathlib

/-!
# Clight: timer subsystem, message macros and the DPMS module

A shallow embedding of `src/utils/timer.c`, of the pub/sub macros of
`src/public.h`, of `init_topics` of `src/main.c` and of `src/modules/dpms.c`,
with the properties proved about them. The message bus of the module library is
not part of the sources; it is modelled from the spec.

C `int` values are integers (`Int`); where the C code converts between
`int`, `unsigned int` and `time_t` the conversion is written out
(`to_uint`, `to_int`), so wrap-around is part of the model.
-/

namespace Clight

/-! ## C integer conversions -/

/-- Smallest value of a C `int` (32 bit). -/
def INT_MIN : Int := -2147483648

/-- Largest value of a C `int` (32 bit). -/
def INT_MAX : Int := 2147483647

/-- The value is representable as a C `int`. -/
def is_int (x : Int) : Prop := INT_MIN ≤ x ∧ x ≤ INT_MAX

instance (x : Int) : Decidable (is_int x) := by
  unfold is_int; infer_instance

/-- Conversion of an integer value to `unsigned int`: reduction modulo 2^32. -/
def to_uint (x : Int) : Int := x % 4294967296

/-- Conversion of an integer value to `int`: the representative of the value
modulo 2^32 that lies in `[INT_MIN, INT_MAX]` (what gcc and clang do). -/
def to_int (x : Int) : Int :=
  if x % 4294967296 ≤ INT_MAX then x % 4294967296 else x % 4294967296 - 4294967296

/-! ## timer.c -/

/-- C `struct timespec`. -/
structure timespec where
  tv_sec : Int
  tv_nsec : Int
deriving DecidableEq, Repr

/-- C `struct itimerspec`. -/
structure itimerspec where
  it_interval : timespec
  it_value : timespec
deriving DecidableEq, Repr

/-- One call of `timerfd_settime(fd, flags, &new_value, NULL)`. -/
structure settime_call where
  fd : Int
  flags : Int
  new_value : itimerspec
deriving DecidableEq, Repr

/-- Messages that timer.c hands to the logging macros. -/
inductive timer_log where
  | ERROR_settime (fd : Int)
  | DEBUG_set_timeout (sec nsec fd : Int)
  | DEBUG_disarmed (fd : Int)
  | WARN_gettime (fd : Int)
deriving DecidableEq, Repr

/-- The countdown resource behind a timerfd, as far as timer.c observes it.

* `gettime_r`, `curr_value`: return value of `timerfd_gettime` and the value it
  stores (time left before the fire; both fields zero when the timer is
  disarmed or has already expired);
* `settime_r`: return value of `timerfd_settime`;
* `setting`: the last `(flags, new_value)` the kernel accepted;
* `calls`: every `timerfd_settime` call made, oldest first;
* `log`: every log message emitted, oldest first. -/
structure timerfd where
  gettime_r : Int
  curr_value : itimerspec
  settime_r : Int
  setting : Option (Int × itimerspec)
  calls : List settime_call
  log : List timer_log
deriving DecidableEq, Repr

/-- Kernel side of `timerfd_settime`: the call is recorded and, unless it fails
(`settime_r = -1`), the new setting replaces the old one. -/
def timerfd_settime (t : timerfd) (fd flags : Int) (new_value : itimerspec) : timerfd :=
  { t with
    calls := t.calls ++ [⟨fd, flags, new_value⟩]
    setting := if t.settime_r = -1 then t.setting else some (flags, new_value) }

/-- Modelled from the spec: the `ERROR` macro is not part of the sources; it is
an error-level diagnostic event handed to the logging sink. -/
def ERROR_settime (t : timerfd) (fd : Int) : timerfd :=
  { t with log := t.log ++ [timer_log.ERROR_settime fd] }

/-- Translation of `set_timeout(sec, nsec, fd, flag)`. -/
def set_timeout (t : timerfd) (sec nsec fd flag : Int) : timerfd :=
  let sec := if sec < 0 then 0 else sec
  let timerValue : itimerspec := ⟨⟨0, 0⟩, ⟨sec, nsec⟩⟩
  let t1 := timerfd_settime t fd flag timerValue
  let t2 := if t.settime_r = -1 then ERROR_settime t1 fd else t1
  if flag = 0 then
    if sec ≠ 0 ∨ nsec ≠ 0 then
      { t2 with log := t2.log ++ [timer_log.DEBUG_set_timeout sec nsec fd] }
    else
      { t2 with log := t2.log ++ [timer_log.DEBUG_disarmed fd] }
  else t2

/-- Translation of `get_timeout_sec(fd)`: the seconds left, or 0 with a warning
when `timerfd_gettime` fails. -/
def get_timeout_sec (t : timerfd) (fd : Int) : Int × timerfd :=
  if t.gettime_r = 0 then (t.curr_value.it_value.tv_sec, t)
  else (0, { t with log := t.log ++ [timer_log.WARN_gettime fd] })

/-- Translation of `reset_timer(fd, old_timer, new_timer)`.

`elapsed_time` is an `unsigned int`, so the comparison `new_timer > elapsed_time`
is made on `unsigned int` and `new_timer - elapsed_time` is an `unsigned int`
that is converted back to `int` when passed to `set_timeout`. -/
def reset_timer (t : timerfd) (fd old_timer new_timer : Int) : timerfd :=
  if old_timer ≤ 0 then
    set_timeout t new_timer 0 fd 0
  else
    let (fd_timeout, t1) := get_timeout_sec t fd
    if fd_timeout = 0 ∧ new_timer > 0 then
      t1
    else
      let elapsed_time := to_uint (old_timer - fd_timeout)
      if to_uint new_timer > elapsed_time then
        set_timeout t1 (to_int (to_uint (to_uint new_timer - elapsed_time))) 0 fd 0
      else if new_timer > 0 then
        set_timeout t1 0 1 fd 0
      else
        set_timeout t1 0 0 fd 0

/-- A timer whose `timerfd_gettime` succeeds and reports `remaining` whole
seconds (and `nsec` nanoseconds) left, with nothing called or logged yet. -/
def timer_reading (remaining nsec : Int) : timerfd :=
  { gettime_r := 0, curr_value := ⟨⟨0, 0⟩, ⟨remaining, nsec⟩⟩, settime_r := 0,
    setting := none, calls := [], log := [] }

/-- The `timerfd_settime` call that arms a one-shot countdown of `sec` seconds
and `nsec` nanoseconds, relative to now, on `fd`. -/
def arm_call (fd sec nsec : Int) : settime_call := ⟨fd, 0, ⟨⟨0, 0⟩, ⟨sec, nsec⟩⟩⟩

/-- Modelled from the spec: "Arming with `(0,0)` disarms the timer" (the kernel
is not part of the sources): the timer is disarmed when the last accepted
setting has a zero `it_value`. A timer that was never set is disarmed. -/
def disarmed (t : timerfd) : Bool :=
  match t.setting with
  | none => true
  | some (_, v) => v.it_value.tv_sec == 0 && v.it_value.tv_nsec == 0

/-! ## public.h: message kinds and the pub/sub macros -/

/-! The values of `enum mod_msg_types`, in declaration order. -/

def SYSTEM_UPD : Int := -2
def FD_UPD : Int := -1
def LOC_UPD : Int := 0
def UPOWER_UPD : Int := 1
def INHIBIT_UPD : Int := 2
def DISPLAY_REQ : Int := 16
def DPMS_TO_REQ : Int := 23
def SIMULATE_REQ : Int := 30
def LID_UPD : Int := 31
def LID_REQ : Int := 32
def PM_UPD : Int := 33
def PM_REQ : Int := 34
def SENS_UPD : Int := 35
def NEXT_DAYEVT_UPD : Int := 36
def SUSPEND_UPD : Int := 37
def SUSPEND_REQ : Int := 38
def KBD_TO_REQ : Int := 39
def AMB_GAMMA_REQ : Int := 40
def KBD_CURVE_REQ : Int := 41
def MSGS_SIZE : Int := 42

/-- Values of `enum ac_states`. -/
def ON_AC : Int := 0
def ON_BATTERY : Int := 1
def SIZE_AC : Int := 2

/-- Values of `enum display_states`. -/
def DISPLAY_ON : Int := 0
def DISPLAY_DIMMED : Int := 1
def DISPLAY_OFF : Int := 2
def DISPLAY_SIZE : Int := 3

/-- The macro `ASSERT_MSG(type)`: the static assertion on a message kind. -/
def ASSERT_MSG (type : Int) : Prop := type ≥ LOC_UPD ∧ type < MSGS_SIZE

instance (type : Int) : Decidable (ASSERT_MSG type) := by
  unfold ASSERT_MSG; infer_instance

/-- The macro `MSG_FLAGS_MASK`, that is `(1 << 16) - 1`. -/
def MSG_FLAGS_MASK : Int := 2 ^ 16 - 1

/-- The macro `MSG_FLAG_HEAP`, that is `1 << 16`. -/
def MSG_FLAG_HEAP : Int := 2 ^ 16

/-- C `timeout_upd`. -/
structure timeout_upd where
  new : Int
  state : Int
  daytime : Int
deriving DecidableEq, Repr

/-- C `display_upd`. -/
structure display_upd where
  old : Int
  new : Int
deriving DecidableEq, Repr

/-- C `message_t`: the kind tag (with its flag bits) and the members of the
payload union that the DPMS module reads or writes (`to_` is the member `to`).
In C the members share their storage; here they are separate fields, and a
message is only ever read through the member of its kind. -/
structure message_t where
  type : Int
  to_ : timeout_upd
  display : display_upd
deriving DecidableEq, Repr

/-- Kind of a pub/sub message of the module library: a user message or one of the
own system messages of the library. -/
inductive ps_msg_type where
  | USER
  | SYSTEM
deriving DecidableEq, Repr

/-- Pub/sub part of a dispatched message (`ps_msg_t` of the module library). -/
structure ps_msg_t where
  type : ps_msg_type
  message : message_t
deriving DecidableEq, Repr

/-- A dispatched message (`msg_t` of the module library). -/
structure msg_t where
  is_pubsub : Bool
  ps_msg : ps_msg_t
deriving DecidableEq, Repr

/-- The macro `MSG_TYPE()`: the kind of the message being dispatched, flag bits removed. -/
def MSG_TYPE (msg : msg_t) : Int :=
  if msg.is_pubsub then
    (if msg.ps_msg.type = ps_msg_type.USER then Int.land msg.ps_msg.message.type MSG_FLAGS_MASK
     else SYSTEM_UPD)
  else FD_UPD

/-- The macro `DECLARE_MSG(name, type)`: a statically allocated message, every
other member zero. -/
def DECLARE_MSG (type : Int) : message_t :=
  { type := type, to_ := ⟨0, 0, 0⟩, display := ⟨0, 0⟩ }

/-- The macro `DECLARE_HEAP_MSG(name, t)`: a zeroed heap message whose type is
`t | MSG_FLAG_HEAP`. -/
def DECLARE_HEAP_MSG (t : Int) : message_t :=
  { type := Int.lor t MSG_FLAG_HEAP, to_ := ⟨0, 0, 0⟩, display := ⟨0, 0⟩ }

/-- Entry `i` of the global `const char *topics[MSGS_SIZE]`; a null entry, and
an index outside the array, read as `none`. -/
def topics_at (topics : List (Option String)) (i : Int) : Option String :=
  if 0 ≤ i then (topics.getD i.toNat none) else none

/-- One call `m_publish(topic, msg, size, autofree)`; the size argument, always
`sizeof(message_t)`, is left out. -/
structure publish_call where
  topic : Option String
  msg : message_t
  autofree : Int
deriving DecidableEq, Repr

/-- The macro `M_PUB(ptr)`: publish on the topic of the message kind; the durable
(autofree) argument is the heap flag of the message. -/
def M_PUB (topics : List (Option String)) (ptr : message_t) : publish_call :=
  { topic := topics_at topics (Int.land ptr.type MSG_FLAGS_MASK)
    msg := ptr
    autofree := Int.land ptr.type MSG_FLAG_HEAP }

/-- Modelled from the spec: the bus (the module library, not part of the
sources) delivers a published message to a subscriber as a user pub/sub
message carrying the published `message_t`. -/
def delivered (c : publish_call) : msg_t :=
  { is_pubsub := true, ps_msg := { type := ps_msg_type.USER, message := c.msg } }

/-! ## dpms.c -/

/-- The receive callbacks that dpms.c installs with `m_become`. -/
inductive behavior where
  | waiting_acstate
  | inhibited
deriving DecidableEq, Repr

/-- What the DPMS module does to the outside: calls into the module library,
into the idle client and into the log. -/
inductive dpms_action where
  | m_subscribe (type : Int)
  | m_become (b : behavior)
  | m_unbecome
  | m_poisonpill_self
  | idle_init (timeout : Int)
  | idle_set_timeout (timeout : Int)
  | idle_client_start (timeout : Int)
  | idle_client_stop
  | idle_client_reset (timeout : Int)
  | add_match_Dpms_Changed
  | WARN_failed_to_init
  | DEBUG_resuming
  | DEBUG_pausing
deriving DecidableEq, Repr

/-- The members of `conf.dpms_conf` used by dpms.c; `timeout` is `int timeout[SIZE_AC]`. -/
structure dpms_conf_t where
  timeout : List Int
  disabled : Bool
deriving DecidableEq, Repr

/-- The members of the global `state` used by dpms.c. -/
structure state_t where
  ac_state : Int
  inhibited : Bool
  suspended : Bool
  display_state : Int
deriving DecidableEq, Repr

/-- The DPMS module and the globals it works on.

* `recvs`: the callbacks pushed with `m_become`, newest first; when it is empty
  the default `receive` is active;
* `poisoned`: the module has sent itself the poison pill;
* `trace`: the actions performed so far, oldest first. -/
structure dpms_t where
  dpms_conf : dpms_conf_t
  state : state_t
  recvs : List behavior
  poisoned : Bool
  trace : List dpms_action
deriving DecidableEq, Repr

/-- What dpms.c gets from code outside the sources: the return value of
`idle_init` and the verdict of the `VALIDATE_REQ` macro on a timeout request. -/
structure dpms_ext where
  idle_init_r : Int
  VALIDATE_REQ : dpms_conf_t → state_t → timeout_upd → Bool

/-- Read `a[i]` of an `int` array; an index outside the array reads 0. -/
def array_get (a : List Int) (i : Int) : Int :=
  if 0 ≤ i then a.getD i.toNat 0 else 0

/-- Write `a[i] = v`; an index outside the array writes nothing. -/
def array_set (a : List Int) (i : Int) (v : Int) : List Int :=
  if 0 ≤ i then a.set i.toNat v else a

/-- The action is appended to the trace. -/
def act (m : dpms_t) (a : dpms_action) : dpms_t :=
  { m with trace := m.trace ++ [a] }

/-- Modelled from the spec: `m_become(B)` of the module library pushes the
behavior `B` on the behavior stack. -/
def m_become (m : dpms_t) (b : behavior) : dpms_t :=
  { m with recvs := b :: m.recvs, trace := m.trace ++ [dpms_action.m_become b] }

/-- Modelled from the spec: `m_unbecome()` of the module library pops the
behavior stack; the default behavior at the bottom stays. -/
def m_unbecome (m : dpms_t) : dpms_t :=
  { m with recvs := m.recvs.tail, trace := m.trace ++ [dpms_action.m_unbecome] }

/-- Modelled from the spec: `m_poisonpill(self())` marks the module poisoned. -/
def m_poisonpill_self (m : dpms_t) : dpms_t :=
  { m with poisoned := true, trace := m.trace ++ [dpms_action.m_poisonpill_self] }

/-- The expression `conf.dpms_conf.timeout[state.ac_state]`. -/
def current_timeout (m : dpms_t) : Int :=
  array_get m.dpms_conf.timeout m.state.ac_state

/-- Translation of `init()`: five subscriptions, then `m_become(waiting_acstate)`. -/
def init (m : dpms_t) : dpms_t :=
  let m := act m (dpms_action.m_subscribe UPOWER_UPD)
  let m := act m (dpms_action.m_subscribe INHIBIT_UPD)
  let m := act m (dpms_action.m_subscribe SUSPEND_UPD)
  let m := act m (dpms_action.m_subscribe DPMS_TO_REQ)
  let m := act m (dpms_action.m_subscribe SIMULATE_REQ)
  m_become m behavior.waiting_acstate

/-- Translation of `upower_timeout_callback()`. -/
def upower_timeout_callback (m : dpms_t) : dpms_t :=
  act m (dpms_action.idle_set_timeout (current_timeout m))

/-- Translation of `inhibit_callback(pause)`. -/
def inhibit_callback (m : dpms_t) (pause : Bool) : dpms_t :=
  if !pause then
    let m := act m dpms_action.DEBUG_resuming
    let m := act m (dpms_action.idle_client_start (current_timeout m))
    m_unbecome m
  else
    let m := act m dpms_action.DEBUG_pausing
    let m := act m dpms_action.idle_client_stop
    m_become m behavior.inhibited

/-- Translation of `receive_waiting_acstate(msg, userdata)`. -/
def receive_waiting_acstate (ext : dpms_ext) (m : dpms_t) (msg : msg_t) : dpms_t :=
  if MSG_TYPE msg = UPOWER_UPD then
    let m := act m (dpms_action.idle_init (current_timeout m))
    let r := ext.idle_init_r
    if r ≠ 0 then
      let m := act m dpms_action.WARN_failed_to_init
      m_poisonpill_self m
    else
      let m := m_unbecome m
      act m dpms_action.add_match_Dpms_Changed
  else m

/-- The `DPMS_TO_REQ` case shared, text for text, by `receive` and
`receive_inhibited`. -/
def dpms_to_req (ext : dpms_ext) (m : dpms_t) (msg : msg_t) : dpms_t :=
  let up := msg.ps_msg.message.to_
  if ext.VALIDATE_REQ m.dpms_conf m.state up then
    let m := { m with dpms_conf := { m.dpms_conf with
                 timeout := array_set m.dpms_conf.timeout up.state up.new } }
    if up.state = m.state.ac_state then upower_timeout_callback m else m
  else m

/-- Modelled from the spec: the `VALIDATE_REQ` macro is not part of the sources;
on the untyped message of `SIMULATE_REQ` it accepts ("Validation is useless
here; only for coherence", dpms.c). -/
def VALIDATE_REQ_void (_msg : msg_t) : Bool := true

/-- Translation of `receive(msg, userdata)`, the default behavior. -/
def receive (ext : dpms_ext) (m : dpms_t) (msg : msg_t) : dpms_t :=
  if MSG_TYPE msg = UPOWER_UPD then upower_timeout_callback m
  else if MSG_TYPE msg = INHIBIT_UPD then inhibit_callback m m.state.inhibited
  else if MSG_TYPE msg = SUSPEND_UPD then inhibit_callback m m.state.suspended
  else if MSG_TYPE msg = DPMS_TO_REQ then dpms_to_req ext m msg
  else if MSG_TYPE msg = SIMULATE_REQ then
    (if VALIDATE_REQ_void msg then act m (dpms_action.idle_client_reset (current_timeout m))
     else m)
  else m

/-- Translation of `receive_inhibited(msg, userdata)`. -/
def receive_inhibited (ext : dpms_ext) (m : dpms_t) (msg : msg_t) : dpms_t :=
  if MSG_TYPE msg = UPOWER_UPD then upower_timeout_callback m
  else if MSG_TYPE msg = INHIBIT_UPD then inhibit_callback m m.state.inhibited
  else if MSG_TYPE msg = SUSPEND_UPD then inhibit_callback m m.state.suspended
  else if MSG_TYPE msg = DPMS_TO_REQ then dpms_to_req ext m msg
  else m

/-- Modelled from the spec: the bus invokes the currently active behavior, the
top of the behavior stack, and a poisoned module receives nothing. -/
def dispatch (ext : dpms_ext) (m : dpms_t) (msg : msg_t) : dpms_t :=
  if m.poisoned then m
  else match m.recvs with
    | [] => receive ext m msg
    | behavior.waiting_acstate :: _ => receive_waiting_acstate ext m msg
    | behavior.inhibited :: _ => receive_inhibited ext m msg

/-- The two pause/resume signals the module listens to. -/
inductive pause_kind where
  | inhibit
  | suspend
deriving DecidableEq, Repr

/-- A pause (`flag = true`) or resume (`flag = false`) signal of one kind. -/
structure pause_signal where
  kind : pause_kind
  flag : Bool
deriving DecidableEq, Repr

/-- Modelled from the spec: the publisher of `INHIBIT_UPD` / `SUSPEND_UPD` (not
part of the sources) stores the new value of its flag in `state` before it
publishes the update. -/
def store_flag (m : dpms_t) (s : pause_signal) : dpms_t :=
  match s.kind with
  | pause_kind.inhibit => { m with state := { m.state with inhibited := s.flag } }
  | pause_kind.suspend => { m with state := { m.state with suspended := s.flag } }

/-- The update message published for a signal, as the bus delivers it. -/
def signal_msg (s : pause_signal) : msg_t :=
  match s.kind with
  | pause_kind.inhibit => delivered ⟨none, DECLARE_MSG INHIBIT_UPD, 0⟩
  | pause_kind.suspend => delivered ⟨none, DECLARE_MSG SUSPEND_UPD, 0⟩

/-- One signal reaches the module: the flag is stored, then the update is
dispatched to the active behavior. -/
def deliver_signal (ext : dpms_ext) (m : dpms_t) (s : pause_signal) : dpms_t :=
  dispatch ext (store_flag m s) (signal_msg s)

/-- The signals are delivered one after the other. -/
def deliver_signals (ext : dpms_ext) (m : dpms_t) (sigs : List pause_signal) : dpms_t :=
  sigs.foldl (deliver_signal ext) m

/-- Number of pauses of kind `k` still waiting for their resume after the
signals, starting from `n`; `none` when a resume of kind `k` arrives while no
pause of that kind is waiting. -/
def open_pauses (k : pause_kind) : List pause_signal → Nat → Option Nat
  | [], n => some n
  | s :: ss, n =>
    if s.kind = k then
      (if s.flag then open_pauses k ss (n + 1)
       else match n with
         | 0 => none
         | n + 1 => open_pauses k ss n)
    else open_pauses k ss n

/-- Every pause has its later resume of the same kind and every resume answers
an earlier pause of its kind. -/
def well_matched (sigs : List pause_signal) : Prop :=
  open_pauses pause_kind.inhibit sigs 0 = some 0 ∧
  open_pauses pause_kind.suspend sigs 0 = some 0

instance (sigs : List pause_signal) : Decidable (well_matched sigs) := by
  unfold well_matched; infer_instance

/-- Depth of the behavior stack above the default behavior after the actions,
starting at depth `d`; `none` when an `m_unbecome` is issued at depth 0, that
is while the default behavior is on top. -/
def stack_depth_after : List dpms_action → Nat → Option Nat
  | [], d => some d
  | dpms_action.m_become _ :: acts, d => stack_depth_after acts (d + 1)
  | dpms_action.m_unbecome :: _, 0 => none
  | dpms_action.m_unbecome :: acts, d + 1 => stack_depth_after acts d
  | _ :: acts, d => stack_depth_after acts d

/-- The module in its default behavior, running: nothing pushed, not poisoned,
nothing done yet. -/
def dpms_default (c : dpms_conf_t) (s : state_t) : dpms_t :=
  { dpms_conf := c, state := s, recvs := [], poisoned := false, trace := [] }

/-- Surroundings in which `idle_init` succeeds and every timeout request is
accepted. -/
def ext_ok : dpms_ext := ⟨0, fun _ _ _ => true⟩

/-- Surroundings in which `idle_init` fails with -1. -/
def ext_fail : dpms_ext := ⟨-1, fun _ _ _ => true⟩

/-- A configuration with a DPMS timeout of 600 s on AC and 300 s on battery. -/
def conf_example : dpms_conf_t := ⟨[600, 300], false⟩

/-- A state on AC, display on, with the given inhibited and suspended flags. -/
def state_example (inhibited suspended : Bool) : state_t :=
  ⟨ON_AC, inhibited, suspended, DISPLAY_ON⟩

/-- Surroundings in which `idle_init` succeeds and every timeout request is
rejected. -/
def ext_reject : dpms_ext := ⟨0, fun _ _ _ => false⟩

/-! ## dpms.c: idle notifications -/

/-- What `on_new_idle` reads from the D-Bus message: the member name and the
payload; `display` and `level` are the "si" payload of a `Changed` signal
(`display` is `none` when the pointer stays `NULL`), `idle` is the "b" payload
of any other member. -/
structure sd_bus_message where
  member : String
  display : Option String
  level : Int
  idle : Bool
deriving DecidableEq, Repr

/-- What a call of `on_new_idle` leaves behind: its return value, the static
message `display_req` and the `m_publish` calls made. -/
structure on_new_idle_result where
  ret : Int
  display_req : message_t
  published : List publish_call
deriving DecidableEq, Repr

/-- Translation of `on_new_idle(m, userdata, ret_error)`.

`state_dpy` is the result of `fetch_display()`, which is not part of the
sources. `idle` is `none` on the two early returns. -/
def on_new_idle (topics : List (Option String)) (state_dpy : Option String)
    (state : state_t) (display_req : message_t) (m : sd_bus_message) : on_new_idle_result :=
  let idle : Option Int :=
    if m.member = "Changed" then
      let display := m.display
      let level := m.level
      if display.isSome ∧ state_dpy.isSome ∧ display ≠ state_dpy then none
      else if (decide (display = none)) ≠ (decide (state_dpy = none)) then none
      else some (if level > 0 then 1 else 0)
    else some (if m.idle then 1 else 0)
  match idle with
  | none => { ret := 0, display_req := display_req, published := [] }
  | some idle =>
    let display_req : message_t :=
      { display_req with display := { display_req.display with old := state.display_state } }
    let display_req : message_t :=
      if idle ≠ 0 then
        { display_req with display := { display_req.display with new := DISPLAY_OFF } }
      else
        { display_req with display := { display_req.display with new := DISPLAY_ON } }
    { ret := 0, display_req := display_req, published := [M_PUB topics display_req] }

/-- In the words of the claim: the display name of the signal and the display of
the session agree, both absent or both present and equal. -/
def displays_agree (display state_dpy : Option String) : Prop :=
  (display = none ∧ state_dpy = none) ∨
  (∃ d : String, display = some d ∧ state_dpy = some d)

/-- In the words of the claim: a notification is accepted when it is not a
`Changed` signal, or when it is one and the displays agree. -/
def notification_accepted (state_dpy : Option String) (m : sd_bus_message) : Prop :=
  m.member ≠ "Changed" ∨ displays_agree m.display state_dpy

/-- In the words of the claim: a notification is idle iff `level > 0` (for
`Changed`) or iff the boolean payload is true (any other member). -/
def notification_idle (m : sd_bus_message) : Bool :=
  if m.member = "Changed" then decide (m.level > 0) else m.idle

/-! ## dpms.c: the idle client under pause signals -/

/-- Whether the idle client runs after the actions, given whether it ran before:
`idle_client_start` sets it running, `idle_client_stop` stops it. -/
def client_running (running : Bool) (trace : List dpms_action) : Bool :=
  trace.foldl (fun r a =>
    match a with
    | dpms_action.idle_client_start _ => true
    | dpms_action.idle_client_stop => false
    | _ => r) running

/-- The flags `(inhibited, suspended)` after a signal that stores its flag. -/
def flags_step (f : Bool × Bool) (s : pause_signal) : Bool × Bool :=
  match s.kind with
  | pause_kind.inhibit => (s.flag, f.2)
  | pause_kind.suspend => (f.1, s.flag)

/-- The flags `(inhibited, suspended)` after the signals. -/
def flags_after (sigs : List pause_signal) (f : Bool × Bool) : Bool × Bool :=
  sigs.foldl flags_step f

/-- Every signal changes its own flag, and a pause arrives only while the other
flag is false: the two flags are never true together. -/
def flags_exclusive : List pause_signal → Bool × Bool → Bool
  | [], _ => true
  | s :: ss, f =>
    (match s.kind with
     | pause_kind.inhibit => (s.flag != f.1) && !(s.flag && f.2)
     | pause_kind.suspend => (s.flag != f.2) && !(s.flag && f.1))
    && flags_exclusive ss (flags_step f s)

/-! ## The message bus of the module library, from the spec -/

/-- Modelled from the spec: a module on the bus with its behavior stack; the
`m_publish` and `m_subscribe` functions and the dispatch belong to the module
library, which is not part of the sources. Behaviors are named by numbers;
`recvs` holds the pushed behaviors, newest first, above `default_recv`. -/
structure bus_module where
  default_recv : Nat
  recvs : List Nat
deriving DecidableEq, Repr

/-- Modelled from the spec: the currently active behavior of the module library
is the top of the behavior stack, the default one when nothing is pushed. -/
def active_recv (m : bus_module) : Nat := m.recvs.headD m.default_recv

/-- One invocation of a behavior: which module, which behavior, which message. -/
structure invocation where
  mod_id : Nat
  recv : Nat
  msg : msg_t
deriving DecidableEq, Repr

/-- Modelled from the spec: the bus of the module library: the modules (module
`k` is `modules[k]`), the subscription table in registration order, and the
invocations made so far, oldest first. -/
structure bus where
  modules : List bus_module
  subs : List (Nat × String)
  invoked : List invocation
deriving DecidableEq, Repr

/-- Modelled from the spec: `m_subscribe(topic)` of the module library, called
by module `k`: the subscription is appended to the table; a null topic fails and
registers nothing. -/
def m_subscribe (b : bus) (k : Nat) (topic : Option String) : bus :=
  match topic with
  | none => b
  | some T => { b with subs := b.subs ++ [(k, T)] }

/-- Modelled from the spec: the subscribers of a topic, in registration order. -/
def subscribers (b : bus) (T : String) : List Nat :=
  (b.subs.filter (fun r => r.2 = T)).map (fun r => r.1)

/-- Modelled from the spec: the active behavior of module `k`, if there is such
a module. -/
def active_of (b : bus) (k : Nat) : Option Nat :=
  (b.modules[k]?).map active_recv

/-- Modelled from the spec: delivery of a message to module `k`: its active
behavior is invoked; `behave k recv msg stack` is the behavior stack that the
behavior `recv` of module `k` leaves (it may call become or unbecome). -/
def deliver_to (behave : Nat → Nat → msg_t → List Nat → List Nat) (msg : msg_t)
    (b : bus) (k : Nat) : bus :=
  match b.modules[k]? with
  | none => b
  | some m =>
    { b with
      modules := b.modules.set k { m with recvs := behave k (active_recv m) msg m.recvs }
      invoked := b.invoked ++ [⟨k, active_recv m, msg⟩] }

/-- Modelled from the spec: `m_publish` of the module library: the message is
delivered synchronously to every subscriber of the topic, one after the other in
registration order; the result is the bus after the last delivery. Nothing is
delivered on a null topic. -/
def m_publish (behave : Nat → Nat → msg_t → List Nat → List Nat) (b : bus)
    (c : publish_call) : bus :=
  match c.topic with
  | none => b
  | some T => (subscribers b T).foldl (deliver_to behave (delivered c)) b

/-- The registrations `(module, topic)` are made one after the other. -/
def register_all (b : bus) (regs : List (Nat × String)) : bus :=
  regs.foldl (fun b r => m_subscribe b r.1 (some r.2)) b

/-- Every subscription of the table belongs to a module on the bus. -/
def subs_known (b : bus) : Prop := ∀ r ∈ b.subs, r.1 < b.modules.length

/-- A bus with three modules and no subscription yet: module 0 has pushed the
behavior 11 above its default 10, modules 1 and 2 run their defaults 20 and 30. -/
def bus_example : bus :=
  { modules := [⟨10, [11]⟩, ⟨20, []⟩, ⟨30, []⟩], subs := [], invoked := [] }

/-- Behaviors that pop their own behavior stack when invoked. -/
def behave_pop (_k _recv : Nat) (_msg : msg_t) (stack : List Nat) : List Nat := stack.tail

/-! ## main.c: the topic table -/

theorem to_uint_of_nonneg_int (x : Int) (h0 : 0 ≤ x) (h1 : x ≤ INT_MAX) : to_uint x = x := by
  unfold to_uint; unfold INT_MAX at h1; omega

theorem to_int_of_is_int (x : Int) (h : is_int x) : to_int x = x := by
  unfold is_int INT_MIN INT_MAX at h
  unfold to_int INT_MAX
  split <;> omega

theorem get_timeout_sec_of_ne_zero (t : timerfd) (fd : Int)
    (h : (get_timeout_sec t fd).1 ≠ 0) :
    get_timeout_sec t fd = (t.curr_value.it_value.tv_sec, t) := by
  unfold get_timeout_sec at h ⊢
  split
  · rfl
  · rename_i hr; simp [hr] at h

theorem get_timeout_sec_calls (t : timerfd) (fd : Int) :
    (get_timeout_sec t fd).2.calls = t.calls ∧
    (get_timeout_sec t fd).2.setting = t.setting ∧
    (get_timeout_sec t fd).2.settime_r = t.settime_r := by
  unfold get_timeout_sec
  split <;> simp

theorem set_timeout_calls (t : timerfd) (sec nsec fd flag : Int) :
    (set_timeout t sec nsec fd flag).calls
      = t.calls ++ [⟨fd, flag, ⟨⟨0, 0⟩, ⟨max sec 0, nsec⟩⟩⟩] := by
  have hmax : (if sec < 0 then 0 else sec) = max sec 0 := by
    split
    · rw [max_eq_right (by omega)]
    · rw [max_eq_left (by omega)]
  unfold set_timeout
  simp only [hmax]
  unfold timerfd_settime ERROR_settime
  split <;> split <;> (try split) <;> rfl

theorem set_timeout_setting (t : timerfd) (sec nsec fd flag : Int) :
    (set_timeout t sec nsec fd flag).setting
      = if t.settime_r = -1 then t.setting
        else some (flag, ⟨⟨0, 0⟩, ⟨max sec 0, nsec⟩⟩) := by
  have hmax : (if sec < 0 then 0 else sec) = max sec 0 := by
    split
    · rw [max_eq_right (by omega)]
    · rw [max_eq_left (by omega)]
  unfold set_timeout
  simp only [hmax]
  unfold timerfd_settime ERROR_settime
  split <;> split <;> (try split) <;> simp_all

theorem set_timeout_log (t : timerfd) (sec nsec fd : Int) :
    (set_timeout t sec nsec fd 0).log
      = t.log ++ (if t.settime_r = -1 then [timer_log.ERROR_settime fd] else []) ++
        [if max sec 0 = 0 ∧ nsec = 0 then timer_log.DEBUG_disarmed fd
         else timer_log.DEBUG_set_timeout (max sec 0) nsec fd] := by
  have hmax : (if sec < 0 then 0 else sec) = max sec 0 := by
    split
    · rw [max_eq_right (by omega)]
    · rw [max_eq_left (by omega)]
  unfold set_timeout
  simp only [hmax]
  unfold timerfd_settime ERROR_settime
  by_cases hr : t.settime_r = -1 <;> by_cases hz : max sec 0 = 0 <;>
    by_cases hn : nsec = 0 <;> simp [hr, hz, hn]

/-! ## Timer subsystem: the resume algorithm -/

/-- C1: on a running timer (`old_timer > 0`) that still has `remaining` whole
seconds left, `0 < remaining ≤ old_timer`, every `new_timer` larger than the
elapsed time `old_timer - remaining` makes `reset_timer` behave as the single
call `set_timeout(new_timer - (old_timer - remaining), 0, fd, 0)`: exactly one
`timerfd_settime` is issued, for that many seconds and 0 nanoseconds. -/
theorem reset_timer_rearms_unconsumed_window (t : timerfd) (fd old_timer new_timer remaining : Int)
    (hold : is_int old_timer) (hnew : is_int new_timer)
    (hrunning : 0 < old_timer)
    (hread : (get_timeout_sec t fd).1 = remaining)
    (hleft : 0 < remaining) (hle : remaining ≤ old_timer)
    (hgt : new_timer > old_timer - remaining) :
    reset_timer t fd old_timer new_timer
        = set_timeout t (new_timer - (old_timer - remaining)) 0 fd 0 ∧
    (reset_timer t fd old_timer new_timer).calls
        = t.calls ++ [arm_call fd (new_timer - (old_timer - remaining)) 0] := by
  have hne : (get_timeout_sec t fd).1 ≠ 0 := by omega
  have hg := get_timeout_sec_of_ne_zero t fd hne
  have hrem : t.curr_value.it_value.tv_sec = remaining := by
    rw [hg] at hread; exact hread
  have hI := hold.2
  have hN := hnew.2
  unfold INT_MAX at hI hN
  have e1 : to_uint (old_timer - remaining) = old_timer - remaining := by
    unfold to_uint; omega
  have e2 : to_uint new_timer = new_timer := by
    unfold to_uint; omega
  have e3 : to_uint (new_timer - (old_timer - remaining)) = new_timer - (old_timer - remaining) := by
    unfold to_uint; omega
  have e4 : to_int (new_timer - (old_timer - remaining)) = new_timer - (old_timer - remaining) := by
    apply to_int_of_is_int
    unfold is_int INT_MIN INT_MAX; omega
  have key : reset_timer t fd old_timer new_timer
      = set_timeout t (new_timer - (old_timer - remaining)) 0 fd 0 := by
    unfold reset_timer
    rw [if_neg (by omega), hg]
    simp only [hrem]
    rw [if_neg (by omega), e1, e2, if_pos hgt, e3, e4]
  refine ⟨key, ?_⟩
  rw [key, set_timeout_calls, max_eq_left (by omega)]
  rfl

/-- Spec example for C1: old 60 s, 20 s left, new 50 s: one rearm for 10 s. -/
theorem reset_timer_rearms_unconsumed_window_witness :
    reset_timer (timer_reading 20 0) 3 60 50 = set_timeout (timer_reading 20 0) (50 - (60 - 20)) 0 3 0 ∧
    (reset_timer (timer_reading 20 0) 3 60 50).calls
        = (timer_reading 20 0).calls ++ [arm_call 3 (50 - (60 - 20)) 0] :=
  reset_timer_rearms_unconsumed_window (timer_reading 20 0) 3 60 50 20
    (by decide) (by decide) (by decide) (by decide) (by decide) (by decide) (by decide)

/-- C2: on a running timer (`old_timer > 0`) with `0 < remaining ≤ old_timer`
(the upper bound follows from the next condition),
every `new_timer` with `0 < new_timer ≤ old_timer - remaining` makes
`reset_timer` behave as the single call `set_timeout(0, 1, fd, 0)`: exactly one
`timerfd_settime` is issued, for 0 seconds and 1 nanosecond; no call for
`(0, 0)` is added and, when the kernel accepts the call, the timer is not
disarmed. -/
theorem reset_timer_fires_at_once_when_elapsed (t : timerfd)
    (fd old_timer new_timer remaining : Int)
    (hold : is_int old_timer) (hnew : is_int new_timer)
    (hrunning : 0 < old_timer)
    (hread : (get_timeout_sec t fd).1 = remaining)
    (hleft : 0 < remaining)
    (hpos : 0 < new_timer) (helapsed : new_timer ≤ old_timer - remaining) :
    reset_timer t fd old_timer new_timer = set_timeout t 0 1 fd 0 ∧
    (reset_timer t fd old_timer new_timer).calls = t.calls ++ [arm_call fd 0 1] ∧
    arm_call fd 0 0 ∉ [arm_call fd 0 1] ∧
    (reset_timer t fd old_timer new_timer).setting
        = (if t.settime_r = -1 then t.setting else some (0, ⟨⟨0, 0⟩, ⟨0, 1⟩⟩)) ∧
    (t.settime_r ≠ -1 → disarmed (reset_timer t fd old_timer new_timer) = false) := by
  have hne : (get_timeout_sec t fd).1 ≠ 0 := by omega
  have hg := get_timeout_sec_of_ne_zero t fd hne
  have hrem : t.curr_value.it_value.tv_sec = remaining := by
    rw [hg] at hread; exact hread
  have hI := hold.2
  have hN := hnew.2
  unfold INT_MAX at hI hN
  have e1 : to_uint (old_timer - remaining) = old_timer - remaining := by
    unfold to_uint; omega
  have e2 : to_uint new_timer = new_timer := by
    unfold to_uint; omega
  have key : reset_timer t fd old_timer new_timer = set_timeout t 0 1 fd 0 := by
    unfold reset_timer
    rw [if_neg (by omega), hg]
    simp only [hrem]
    rw [if_neg (by omega), e1, e2, if_neg (by omega), if_pos hpos]
  have hset := set_timeout_setting t 0 1 fd 0
  rw [max_eq_left (le_refl (0 : Int))] at hset
  refine ⟨key, ?_, by simp [arm_call], ?_, ?_⟩
  · rw [key, set_timeout_calls, max_eq_left (le_refl (0 : Int))]
    rfl
  · rw [key, hset]
  · intro hok
    unfold disarmed
    rw [key, hset, if_neg hok]
    rfl

/-- Spec example for C2: old 60 s, 20 s left, new 30 s: a fire after 1 ns. -/
theorem reset_timer_fires_at_once_when_elapsed_witness :
    (reset_timer (timer_reading 20 0) 3 60 30).calls
        = (timer_reading 20 0).calls ++ [arm_call 3 0 1] ∧
    disarmed (reset_timer (timer_reading 20 0) 3 60 30) = false :=
  have h := reset_timer_fires_at_once_when_elapsed (timer_reading 20 0) 3 60 30 20
    (by decide) (by decide) (by decide) (by decide) (by decide) (by decide) (by decide)
  ⟨h.2.1, h.2.2.2.2 (by decide)⟩

/-- C3: on a running timer (`old_timer > 0`) whose remaining time reads 0, every
`new_timer > 0` makes `reset_timer` return right after the reading: no
`timerfd_settime` call is made and the setting of the timer is the one it had. -/
theorem reset_timer_leaves_due_timer (t : timerfd) (fd old_timer new_timer : Int)
    (hrunning : 0 < old_timer)
    (hread : (get_timeout_sec t fd).1 = 0)
    (hpos : 0 < new_timer) :
    reset_timer t fd old_timer new_timer = (get_timeout_sec t fd).2 ∧
    (reset_timer t fd old_timer new_timer).calls = t.calls ∧
    (reset_timer t fd old_timer new_timer).setting = t.setting := by
  have key : reset_timer t fd old_timer new_timer = (get_timeout_sec t fd).2 := by
    unfold reset_timer
    rw [if_neg (by omega)]
    rcases hq : get_timeout_sec t fd with ⟨v, t1⟩
    rw [hq] at hread
    simp only at hread
    simp [hread, hpos]
  have hc := get_timeout_sec_calls t fd
  exact ⟨key, by rw [key]; exact hc.1, by rw [key]; exact hc.2.1⟩

/-- Spec example for C3: the timer reads 0 and the new timeout is 30 s:
nothing is programmed. -/
theorem reset_timer_leaves_due_timer_witness :
    reset_timer (timer_reading 0 0) 3 60 30 = (get_timeout_sec (timer_reading 0 0) 3).2 ∧
    (reset_timer (timer_reading 0 0) 3 60 30).calls = (timer_reading 0 0).calls ∧
    (reset_timer (timer_reading 0 0) 3 60 30).setting = (timer_reading 0 0).setting :=
  reset_timer_leaves_due_timer (timer_reading 0 0) 3 60 30 (by decide) (by decide) (by decide)

/-- C4 as stated fails: a disarmed timer (it reads 0 and has no setting) with
`old_timer = 60` and `new_timer = 15` is not armed for 15 s; `reset_timer`
makes no `timerfd_settime` call at all and the timer stays disarmed. -/
theorem reset_timer_disarmed_positive_old_not_armed :
    disarmed (timer_reading 0 0) = true ∧
    (get_timeout_sec (timer_reading 0 0) 3).1 = 0 ∧
    (reset_timer (timer_reading 0 0) 3 60 15).calls = [] ∧
    (reset_timer (timer_reading 0 0) 3 60 15).calls ≠ [arm_call 3 15 0] ∧
    disarmed (reset_timer (timer_reading 0 0) 3 60 15) = true := by
  decide

/-- C4, amended: `reset_timer` takes a timer for paused when `old_timer ≤ 0`; then,
for every `new_timer > 0` and whatever the timer reads, it behaves as the single
call `set_timeout(new_timer, 0, fd, 0)`: exactly one `timerfd_settime` is
issued, for `new_timer` seconds and 0 nanoseconds. -/
theorem reset_timer_paused_arms_fresh (t : timerfd) (fd old_timer new_timer : Int)
    (hpaused : old_timer ≤ 0) (hpos : 0 < new_timer) :
    reset_timer t fd old_timer new_timer = set_timeout t new_timer 0 fd 0 ∧
    (reset_timer t fd old_timer new_timer).calls = t.calls ++ [arm_call fd new_timer 0] := by
  have key : reset_timer t fd old_timer new_timer = set_timeout t new_timer 0 fd 0 := by
    unfold reset_timer
    rw [if_pos hpaused]
  refine ⟨key, ?_⟩
  rw [key, set_timeout_calls, max_eq_left (by omega)]
  rfl

/-- Spec example for C4: a paused timer (`old_timer = 0`) and a new timeout of
15 s: armed for 15 s. -/
theorem reset_timer_paused_arms_fresh_witness :
    reset_timer (timer_reading 0 0) 3 0 15 = set_timeout (timer_reading 0 0) 15 0 3 0 ∧
    (reset_timer (timer_reading 0 0) 3 0 15).calls
        = (timer_reading 0 0).calls ++ [arm_call 3 15 0] :=
  reset_timer_paused_arms_fresh (timer_reading 0 0) 3 0 15 (by decide) (by decide)

/-- C5 fails on the code: with `old_timer = 60`, 20 s left and
`new_timer = INT_MIN`, the comparison `new_timer > elapsed_time` is made on
`unsigned int` (2^31 > 40), so `reset_timer` arms the timer for
2^31 - 40 = 2147483608 seconds instead of disarming it. -/
theorem reset_timer_int_min_arms :
    is_int 60 ∧ is_int INT_MIN ∧ INT_MIN ≤ 0 ∧
    (reset_timer (timer_reading 20 0) 3 60 INT_MIN).calls = [arm_call 3 2147483608 0] ∧
    (reset_timer (timer_reading 20 0) 3 60 INT_MIN).setting
        = some (0, ⟨⟨0, 0⟩, ⟨2147483608, 0⟩⟩) ∧
    disarmed (reset_timer (timer_reading 20 0) 3 60 INT_MIN) = false := by
  decide

/-- C6: `set_timeout(sec, nsec, fd, flag)` issues exactly one `timerfd_settime`,
with a zero repeat interval and the value `(max(sec, 0), nsec)`; when the kernel
accepts it, that is the new setting, and the timer is then disarmed exactly
when `max(sec, 0) = 0` and `nsec = 0`; with `flag = 0` the function logs
"Disarmed" in exactly that case and "Set timeout" otherwise. -/
theorem set_timeout_programs_clamped_one_shot (t : timerfd) (sec nsec fd flag : Int) :
    (set_timeout t sec nsec fd flag).calls
        = t.calls ++ [⟨fd, flag, ⟨⟨0, 0⟩, ⟨max sec 0, nsec⟩⟩⟩] ∧
    (set_timeout t sec nsec fd flag).setting
        = (if t.settime_r = -1 then t.setting
           else some (flag, ⟨⟨0, 0⟩, ⟨max sec 0, nsec⟩⟩)) ∧
    disarmed (set_timeout t sec nsec fd flag)
        = (if t.settime_r = -1 then disarmed t
           else decide (max sec 0 = 0 ∧ nsec = 0)) ∧
    (set_timeout t sec nsec fd 0).log
        = t.log ++ (if t.settime_r = -1 then [timer_log.ERROR_settime fd] else []) ++
          [if max sec 0 = 0 ∧ nsec = 0 then timer_log.DEBUG_disarmed fd
           else timer_log.DEBUG_set_timeout (max sec 0) nsec fd] := by
  refine ⟨set_timeout_calls t sec nsec fd flag, set_timeout_setting t sec nsec fd flag, ?_,
    set_timeout_log t sec nsec fd⟩
  unfold disarmed
  rw [set_timeout_setting]
  by_cases hr : t.settime_r = -1
  · rw [if_pos hr, if_pos hr]
  · rw [if_neg hr, if_neg hr]
    by_cases h1 : sec ≤ 0
    · by_cases h4 : nsec = 0
      · simp [max_eq_right h1, h4]
      · simp [max_eq_right h1, h4]
    · have h2 : 0 ≤ sec := by omega
      have h3 : sec ≠ 0 := by omega
      simp [max_eq_left h2, h3]

/-! ## DPMS module: behavior switching -/

theorem MSG_TYPE_signal_msg (s : pause_signal) :
    MSG_TYPE (signal_msg s)
      = (match s.kind with
         | pause_kind.inhibit => INHIBIT_UPD
         | pause_kind.suspend => SUSPEND_UPD) := by
  rcases s with ⟨k, f⟩
  cases k <;> rfl

theorem store_flag_frame (m : dpms_t) (s : pause_signal) :
    (store_flag m s).recvs = m.recvs ∧ (store_flag m s).poisoned = m.poisoned ∧
    (store_flag m s).trace = m.trace ∧ (store_flag m s).dpms_conf = m.dpms_conf ∧
    (store_flag m s).state.ac_state = m.state.ac_state := by
  rcases s with ⟨k, f⟩
  cases k <;> simp [store_flag]

theorem receive_signal_msg (ext : dpms_ext) (m : dpms_t) (s : pause_signal) :
    receive ext (store_flag m s) (signal_msg s) = inhibit_callback (store_flag m s) s.flag ∧
    receive_inhibited ext (store_flag m s) (signal_msg s)
      = inhibit_callback (store_flag m s) s.flag := by
  rcases s with ⟨k, f⟩
  cases k
  · have h : MSG_TYPE (signal_msg ⟨pause_kind.inhibit, f⟩) = INHIBIT_UPD := rfl
    constructor
    · unfold receive
      rw [h, if_neg (by decide), if_pos rfl]
      rfl
    · unfold receive_inhibited
      rw [h, if_neg (by decide), if_pos rfl]
      rfl
  · have h : MSG_TYPE (signal_msg ⟨pause_kind.suspend, f⟩) = SUSPEND_UPD := rfl
    constructor
    · unfold receive
      rw [h, if_neg (by decide), if_neg (by decide), if_pos rfl]
      rfl
    · unfold receive_inhibited
      rw [h, if_neg (by decide), if_neg (by decide), if_pos rfl]
      rfl

/-- In the default or the inhibited behavior a signal runs `inhibit_callback`
with the flag of the signal. -/
theorem deliver_signal_eq (ext : dpms_ext) (m : dpms_t) (s : pause_signal) (n : Nat)
    (hp : m.poisoned = false) (hr : m.recvs = List.replicate n behavior.inhibited) :
    deliver_signal ext m s = inhibit_callback (store_flag m s) s.flag := by
  have hf := store_flag_frame m s
  have hrs := receive_signal_msg ext m s
  unfold deliver_signal dispatch
  rw [hf.2.1, hp]
  simp only [Bool.false_eq_true, if_false]
  cases n with
  | zero =>
    have h0 : (store_flag m s).recvs = [] := by rw [hf.1, hr]; rfl
    rw [h0]
    exact hrs.1
  | succ k =>
    have h1 : (store_flag m s).recvs
        = behavior.inhibited :: List.replicate k behavior.inhibited := by
      rw [hf.1, hr]; rfl
    rw [h1]
    exact hrs.2

theorem deliver_signal_pause (ext : dpms_ext) (m : dpms_t) (s : pause_signal) (n : Nat)
    (hp : m.poisoned = false) (hr : m.recvs = List.replicate n behavior.inhibited)
    (hs : s.flag = true) :
    (deliver_signal ext m s).poisoned = false ∧
    (deliver_signal ext m s).recvs = List.replicate (n + 1) behavior.inhibited ∧
    (deliver_signal ext m s).trace
      = m.trace ++ [dpms_action.DEBUG_pausing, dpms_action.idle_client_stop,
                    dpms_action.m_become behavior.inhibited] := by
  have hf := store_flag_frame m s
  rw [deliver_signal_eq ext m s n hp hr, hs]
  simp [inhibit_callback, m_become, act, hf.1, hf.2.1, hf.2.2.1, hp, hr, List.replicate_succ]

theorem deliver_signal_resume (ext : dpms_ext) (m : dpms_t) (s : pause_signal) (n : Nat)
    (hp : m.poisoned = false) (hr : m.recvs = List.replicate n behavior.inhibited)
    (hs : s.flag = false) :
    (deliver_signal ext m s).poisoned = false ∧
    (deliver_signal ext m s).recvs = List.replicate (n - 1) behavior.inhibited ∧
    (deliver_signal ext m s).trace
      = m.trace ++ [dpms_action.DEBUG_resuming,
                    dpms_action.idle_client_start (current_timeout m),
                    dpms_action.m_unbecome] := by
  have hf := store_flag_frame m s
  have hct : current_timeout (act (store_flag m s) dpms_action.DEBUG_resuming)
      = current_timeout m := by
    simp [current_timeout, act, hf.2.2.2.1, hf.2.2.2.2]
  rw [deliver_signal_eq ext m s n hp hr, hs]
  simp only [inhibit_callback, Bool.not_false, if_true, hct]
  refine ⟨?_, ?_, ?_⟩
  · simp [m_unbecome, act, hf.2.1, hp]
  · cases n <;> simp [m_unbecome, act, hf.1, hr, List.replicate_succ]
  · simp [m_unbecome, act, hf.2.2.1]

theorem open_pauses_append (k : pause_kind) (xs ys : List pause_signal) (n : Nat) :
    open_pauses k (xs ++ ys) n = (open_pauses k xs n).bind (open_pauses k ys) := by
  induction xs generalizing n with
  | nil => rfl
  | cons s ss ih =>
    simp only [List.cons_append, open_pauses]
    by_cases hk : s.kind = k
    · rw [if_pos hk, if_pos hk]
      by_cases hf : s.flag = true
      · rw [if_pos hf, if_pos hf]
        exact ih (n + 1)
      · rw [if_neg hf, if_neg hf]
        cases n with
        | zero => rfl
        | succ j => exact ih j
    · rw [if_neg hk, if_neg hk]
      exact ih n

theorem deliver_signals_cons (ext : dpms_ext) (m : dpms_t) (s : pause_signal)
    (ss : List pause_signal) :
    deliver_signals ext m (s :: ss) = deliver_signals ext (deliver_signal ext m s) ss := rfl

/-- Invariant of a run of signals from the default or the inhibited behavior:
the stack holds one `inhibited` entry per pause still waiting for its resume. -/
theorem deliver_signals_invariant (ext : dpms_ext) (sigs : List pause_signal) :
    ∀ (m : dpms_t) (a b a1 b1 : Nat),
      m.poisoned = false →
      m.recvs = List.replicate (a + b) behavior.inhibited →
      open_pauses pause_kind.inhibit sigs a = some a1 →
      open_pauses pause_kind.suspend sigs b = some b1 →
      (deliver_signals ext m sigs).poisoned = false ∧
      (deliver_signals ext m sigs).recvs = List.replicate (a1 + b1) behavior.inhibited ∧
      ∃ issued, (deliver_signals ext m sigs).trace = m.trace ++ issued ∧
        stack_depth_after issued (a + b) = some (a1 + b1) ∧
        issued.count (dpms_action.m_become behavior.inhibited) + (a + b)
          = issued.count dpms_action.m_unbecome + (a1 + b1) := by
  induction sigs with
  | nil =>
    intro m a b a1 b1 hp hr ha hb
    simp only [open_pauses, Option.some.injEq] at ha hb
    subst ha; subst hb
    exact ⟨hp, hr, [], by simp [deliver_signals], rfl, by simp⟩
  | cons s ss ih =>
    intro m a b a1 b1 hp hr ha hb
    rw [deliver_signals_cons]
    rcases s with ⟨k, f⟩
    cases f with
    | true =>
      obtain ⟨hp1, hr1, ht1⟩ := deliver_signal_pause ext m ⟨k, true⟩ (a + b) hp hr rfl
      cases k with
      | inhibit =>
        simp only [open_pauses, if_true, reduceCtorEq, if_false] at ha hb
        have hr2 : (deliver_signal ext m ⟨pause_kind.inhibit, true⟩).recvs
            = List.replicate ((a + 1) + b) behavior.inhibited := by
          rw [hr1]; congr 1; omega
        obtain ⟨h1, h2, issued, h3, h4, h5⟩ := ih _ (a + 1) b a1 b1 hp1 hr2 ha hb
        refine ⟨h1, h2, [dpms_action.DEBUG_pausing, dpms_action.idle_client_stop,
          dpms_action.m_become behavior.inhibited] ++ issued, ?_, ?_, ?_⟩
        · rw [h3, ht1, List.append_assoc]
        · have e : a + 1 + b = a + b + 1 := by omega
          rw [e] at h4
          simpa [stack_depth_after] using h4
        · simp only [List.count_append] at h5 ⊢
          simp
          omega
      | suspend =>
        simp only [open_pauses, if_true, reduceCtorEq, if_false] at ha hb
        have hr2 : (deliver_signal ext m ⟨pause_kind.suspend, true⟩).recvs
            = List.replicate (a + (b + 1)) behavior.inhibited := by
          rw [hr1]; rfl
        obtain ⟨h1, h2, issued, h3, h4, h5⟩ := ih _ a (b + 1) a1 b1 hp1 hr2 ha hb
        refine ⟨h1, h2, [dpms_action.DEBUG_pausing, dpms_action.idle_client_stop,
          dpms_action.m_become behavior.inhibited] ++ issued, ?_, ?_, ?_⟩
        · rw [h3, ht1, List.append_assoc]
        · have e : a + (b + 1) = a + b + 1 := by omega
          rw [e] at h4
          simpa [stack_depth_after] using h4
        · simp only [List.count_append] at h5 ⊢
          simp
          omega
    | false =>
      obtain ⟨hp1, hr1, ht1⟩ := deliver_signal_resume ext m ⟨k, false⟩ (a + b) hp hr rfl
      cases k with
      | inhibit =>
        simp only [open_pauses, if_true, reduceCtorEq, if_false, Bool.false_eq_true] at ha hb
        cases a with
        | zero => simp at ha
        | succ j =>
          simp only at ha
          have hr2 : (deliver_signal ext m ⟨pause_kind.inhibit, false⟩).recvs
              = List.replicate (j + b) behavior.inhibited := by
            rw [hr1]; congr 1; omega
          obtain ⟨h1, h2, issued, h3, h4, h5⟩ := ih _ j b a1 b1 hp1 hr2 ha hb
          refine ⟨h1, h2, [dpms_action.DEBUG_resuming,
            dpms_action.idle_client_start (current_timeout m),
            dpms_action.m_unbecome] ++ issued, ?_, ?_, ?_⟩
          · rw [h3, ht1, List.append_assoc]
          · have e : j + 1 + b = j + b + 1 := by omega
            rw [e]
            simpa [stack_depth_after] using h4
          · simp only [List.count_append] at h5 ⊢
            simp
            omega
      | suspend =>
        simp only [open_pauses, if_true, reduceCtorEq, if_false, Bool.false_eq_true] at ha hb
        cases b with
        | zero => simp at hb
        | succ j =>
          simp only at hb
          have hr2 : (deliver_signal ext m ⟨pause_kind.suspend, false⟩).recvs
              = List.replicate (a + j) behavior.inhibited := by
            rw [hr1]; rfl
          obtain ⟨h1, h2, issued, h3, h4, h5⟩ := ih _ a j a1 b1 hp1 hr2 ha hb
          refine ⟨h1, h2, [dpms_action.DEBUG_resuming,
            dpms_action.idle_client_start (current_timeout m),
            dpms_action.m_unbecome] ++ issued, ?_, ?_, ?_⟩
          · rw [h3, ht1, List.append_assoc]
          · have e : a + (j + 1) = a + j + 1 := by omega
            rw [e]
            simpa [stack_depth_after] using h4
          · simp only [List.count_append] at h5 ⊢
            simp
            omega

theorem open_pauses_split (k : pause_kind) (xs ys : List pause_signal) (n r : Nat)
    (h : open_pauses k (xs ++ ys) n = some r) :
    ∃ a, open_pauses k xs n = some a ∧ open_pauses k ys a = some r := by
  rw [open_pauses_append] at h
  cases hx : open_pauses k xs n with
  | none => rw [hx] at h; simp at h
  | some a => rw [hx] at h; exact ⟨a, rfl, h⟩

/-- C7 as stated fails: a sequence without any pause signal (so every pause
signal in it has its resume) that holds a resume, delivered in the default
behavior, makes `inhibit_callback` issue `m_unbecome()` while the default
behavior is on top. This is the run when the inhibition began before the module
left its waiting behavior. -/
theorem dpms_resume_without_pause_unbecomes_default :
    (∀ s ∈ [(⟨pause_kind.inhibit, false⟩ : pause_signal)], s.flag = false) ∧
    (dpms_default conf_example (state_example true false)).recvs = [] ∧
    (deliver_signals ext_ok (dpms_default conf_example (state_example true false))
        [⟨pause_kind.inhibit, false⟩]).trace
      = [dpms_action.DEBUG_resuming, dpms_action.idle_client_start 600,
         dpms_action.m_unbecome] ∧
    stack_depth_after
      (deliver_signals ext_ok (dpms_default conf_example (state_example true false))
        [⟨pause_kind.inhibit, false⟩]).trace 0 = none := by
  decide

/-- C7, amended: from the default behavior of a running module, for every
sequence of `INHIBIT_UPD` / `SUSPEND_UPD` signals in which every pause has its
later resume of the same kind and every resume answers an earlier pause of its
kind: the `m_become(inhibited)` and `m_unbecome()` calls issued are matched like
brackets (no `m_unbecome()` at depth 0), there are as many of the one as of the
other, the default `receive` is active again at the end, and whenever a resume
is delivered the behavior stack is not empty. -/
theorem dpms_become_unbecome_balanced (ext : dpms_ext) (m : dpms_t)
    (sigs : List pause_signal)
    (hdefault : m.recvs = []) (hrunning : m.poisoned = false)
    (hmatched : well_matched sigs) :
    stack_depth_after ((deliver_signals ext m sigs).trace.drop m.trace.length) 0 = some 0 ∧
    ((deliver_signals ext m sigs).trace.drop m.trace.length).count
        (dpms_action.m_become behavior.inhibited)
      = ((deliver_signals ext m sigs).trace.drop m.trace.length).count dpms_action.m_unbecome ∧
    (deliver_signals ext m sigs).recvs = [] ∧
    (∀ pre s post, sigs = pre ++ s :: post → s.flag = false →
        (deliver_signals ext m pre).recvs ≠ []) := by
  obtain ⟨hi, hs⟩ := hmatched
  obtain ⟨_, h2, issued, h3, h4, h5⟩ :=
    deliver_signals_invariant ext sigs m 0 0 0 0 hrunning (by rw [hdefault]; rfl) hi hs
  have hdrop : (deliver_signals ext m sigs).trace.drop m.trace.length = issued := by
    rw [h3]; simp
  rw [hdrop]
  refine ⟨h4, by omega, by rw [h2]; rfl, ?_⟩
  intro pre s post hsplit hflag
  subst hsplit
  obtain ⟨a, ha, ha2⟩ := open_pauses_split pause_kind.inhibit pre (s :: post) 0 0 hi
  obtain ⟨b, hb, hb2⟩ := open_pauses_split pause_kind.suspend pre (s :: post) 0 0 hs
  obtain ⟨_, hr, _⟩ :=
    deliver_signals_invariant ext pre m 0 0 a b hrunning (by rw [hdefault]; rfl) ha hb
  have hpos : 0 < a + b := by
    rcases s with ⟨k, f⟩
    simp only at hflag
    subst hflag
    cases k with
    | inhibit =>
      cases a with
      | zero => simp [open_pauses] at ha2
      | succ j => omega
    | suspend =>
      cases b with
      | zero => simp [open_pauses] at hb2
      | succ j => omega
  rw [hr]
  intro hnil
  have hlen := congrArg List.length hnil
  simp at hlen
  omega

/-- Example for C7: inhibit, suspend, resume from suspend, uninhibit. -/
theorem dpms_become_unbecome_balanced_witness :
    stack_depth_after
      ((deliver_signals ext_ok (dpms_default conf_example (state_example false false))
          [⟨pause_kind.inhibit, true⟩, ⟨pause_kind.suspend, true⟩,
           ⟨pause_kind.suspend, false⟩, ⟨pause_kind.inhibit, false⟩]).trace.drop
        (dpms_default conf_example (state_example false false)).trace.length) 0 = some 0 ∧
    (deliver_signals ext_ok (dpms_default conf_example (state_example false false))
          [⟨pause_kind.inhibit, true⟩, ⟨pause_kind.suspend, true⟩,
           ⟨pause_kind.suspend, false⟩, ⟨pause_kind.inhibit, false⟩]).recvs = [] :=
  have h := dpms_become_unbecome_balanced ext_ok
    (dpms_default conf_example (state_example false false))
    [⟨pause_kind.inhibit, true⟩, ⟨pause_kind.suspend, true⟩,
     ⟨pause_kind.suspend, false⟩, ⟨pause_kind.inhibit, false⟩]
    (by decide) (by decide) (by decide)
  ⟨h.1, h.2.2.1⟩

/-! ## DPMS module: the inhibited and the waiting behavior -/

/-- C8: for every message whose kind is not `SIMULATE_REQ`, `receive_inhibited`
returns exactly what `receive` returns (same actions, same configuration and
state); for a `SIMULATE_REQ` message `receive_inhibited` changes nothing and
does nothing, whereas `receive` calls `idle_client_reset` with
`conf.dpms_conf.timeout[state.ac_state]` and changes nothing else. -/
theorem receive_inhibited_drops_only_simulate (ext : dpms_ext) (m : dpms_t) (msg : msg_t) :
    (MSG_TYPE msg ≠ SIMULATE_REQ → receive_inhibited ext m msg = receive ext m msg) ∧
    (MSG_TYPE msg = SIMULATE_REQ →
      receive_inhibited ext m msg = m ∧
      receive ext m msg
        = { m with trace := m.trace ++ [dpms_action.idle_client_reset (current_timeout m)] }) := by
  constructor
  · intro h
    unfold receive receive_inhibited
    rw [if_neg h]
  · intro h
    constructor
    · unfold receive_inhibited
      rw [h, if_neg (by decide), if_neg (by decide), if_neg (by decide), if_neg (by decide)]
    · unfold receive
      rw [h, if_neg (by decide), if_neg (by decide), if_neg (by decide), if_neg (by decide),
        if_pos rfl]
      rfl

/-- Example for C8: a `DPMS_TO_REQ` request is handled alike by both behaviors; a
`SIMULATE_REQ` is dropped by `receive_inhibited` and resets the idle client in
`receive`. -/
theorem receive_inhibited_drops_only_simulate_witness :
    receive_inhibited ext_ok (dpms_default conf_example (state_example true false))
        (delivered ⟨none, { type := DPMS_TO_REQ, to_ := ⟨120, ON_AC, 0⟩, display := ⟨0, 0⟩ }, 0⟩)
      = receive ext_ok (dpms_default conf_example (state_example true false))
        (delivered ⟨none, { type := DPMS_TO_REQ, to_ := ⟨120, ON_AC, 0⟩, display := ⟨0, 0⟩ }, 0⟩) ∧
    receive_inhibited ext_ok (dpms_default conf_example (state_example true false))
        (delivered ⟨none, DECLARE_MSG SIMULATE_REQ, 0⟩)
      = dpms_default conf_example (state_example true false) ∧
    (receive ext_ok (dpms_default conf_example (state_example true false))
        (delivered ⟨none, DECLARE_MSG SIMULATE_REQ, 0⟩)).trace
      = [dpms_action.idle_client_reset 600] :=
  ⟨(receive_inhibited_drops_only_simulate ext_ok
      (dpms_default conf_example (state_example true false))
      (delivered ⟨none, { type := DPMS_TO_REQ, to_ := ⟨120, ON_AC, 0⟩, display := ⟨0, 0⟩ }, 0⟩)).1
      (by decide),
   ((receive_inhibited_drops_only_simulate ext_ok
      (dpms_default conf_example (state_example true false))
      (delivered ⟨none, DECLARE_MSG SIMULATE_REQ, 0⟩)).2 (by decide)).1,
   by decide⟩

/-- C9: in `receive_waiting_acstate`, on a `UPOWER_UPD` message `idle_init` is
called with the timeout of the current ac state; when it returns a non-zero
value the module logs the failure and sends itself the poison pill, with no
`m_unbecome()` and no match registered; when it returns 0 the module calls
`m_unbecome()` once and registers the `Dpms.Changed` match, with no poison
pill, and if the waiting behavior was the only one pushed the default `receive`
is active afterwards. A message of any other kind changes nothing and triggers
no action. -/
theorem receive_waiting_acstate_inits_or_poisons (ext : dpms_ext) (m : dpms_t) (msg : msg_t) :
    (MSG_TYPE msg = UPOWER_UPD → ext.idle_init_r ≠ 0 →
      receive_waiting_acstate ext m msg
        = { m with
            poisoned := true
            trace := m.trace ++ [dpms_action.idle_init (current_timeout m),
                                 dpms_action.WARN_failed_to_init,
                                 dpms_action.m_poisonpill_self] }) ∧
    (MSG_TYPE msg = UPOWER_UPD → ext.idle_init_r = 0 →
      receive_waiting_acstate ext m msg
        = { m with
            recvs := m.recvs.tail
            trace := m.trace ++ [dpms_action.idle_init (current_timeout m),
                                 dpms_action.m_unbecome,
                                 dpms_action.add_match_Dpms_Changed] } ∧
      (m.recvs = [behavior.waiting_acstate] →
        (receive_waiting_acstate ext m msg).recvs = [])) ∧
    (MSG_TYPE msg ≠ UPOWER_UPD → receive_waiting_acstate ext m msg = m) := by
  refine ⟨?_, ?_, ?_⟩
  · intro h hr
    unfold receive_waiting_acstate
    rw [if_pos h]
    simp [hr, m_poisonpill_self, act]
  · intro h hr
    have key : receive_waiting_acstate ext m msg
        = { m with
            recvs := m.recvs.tail
            trace := m.trace ++ [dpms_action.idle_init (current_timeout m),
                                 dpms_action.m_unbecome,
                                 dpms_action.add_match_Dpms_Changed] } := by
      unfold receive_waiting_acstate
      rw [if_pos h]
      simp [hr, m_unbecome, act]
    refine ⟨key, ?_⟩
    intro hw
    rw [key, hw]
    rfl
  · intro h
    unfold receive_waiting_acstate
    rw [if_neg h]

/-- Example for C9: after `init()`, the first `UPOWER_UPD` with a failing
`idle_init` poisons the module, with a successful one it pops to the default
behavior, and an `INHIBIT_UPD` received while waiting changes nothing. -/
theorem receive_waiting_acstate_inits_or_poisons_witness :
    (receive_waiting_acstate ext_fail
        (init (dpms_default conf_example (state_example false false)))
        (delivered ⟨none, DECLARE_MSG UPOWER_UPD, 0⟩)).poisoned = true ∧
    (receive_waiting_acstate ext_ok
        (init (dpms_default conf_example (state_example false false)))
        (delivered ⟨none, DECLARE_MSG UPOWER_UPD, 0⟩)).recvs = [] ∧
    receive_waiting_acstate ext_ok
        (init (dpms_default conf_example (state_example false false)))
        (delivered ⟨none, DECLARE_MSG INHIBIT_UPD, 0⟩)
      = init (dpms_default conf_example (state_example false false)) :=
  ⟨congrArg dpms_t.poisoned
      ((receive_waiting_acstate_inits_or_poisons ext_fail
        (init (dpms_default conf_example (state_example false false)))
        (delivered ⟨none, DECLARE_MSG UPOWER_UPD, 0⟩)).1 (by decide) (by decide)),
   ((receive_waiting_acstate_inits_or_poisons ext_ok
        (init (dpms_default conf_example (state_example false false)))
        (delivered ⟨none, DECLARE_MSG UPOWER_UPD, 0⟩)).2.1 (by decide) (by decide)).2
      (by decide),
   (receive_waiting_acstate_inits_or_poisons ext_ok
        (init (dpms_default conf_example (state_example false false)))
        (delivered ⟨none, DECLARE_MSG INHIBIT_UPD, 0⟩)).2.2 (by decide)⟩

/-! ## Message macros -/

theorem heap_flag_bits (t : Int) (h0 : 0 ≤ t) (h1 : t < 42) :
    Int.land (Int.lor t MSG_FLAG_HEAP) MSG_FLAGS_MASK = t ∧
    Int.land (Int.lor t MSG_FLAG_HEAP) MSG_FLAG_HEAP = 65536 ∧
    Int.land t MSG_FLAGS_MASK = t ∧
    Int.land t MSG_FLAG_HEAP = 0 := by
  interval_cases t <;> decide

/-- C10: for every kind `t` accepted by `ASSERT_MSG` (`LOC_UPD ≤ t < MSGS_SIZE`),
`M_PUB` publishes a `DECLARE_HEAP_MSG` message on `topics[t]` with a non-zero
durable argument and a `DECLARE_MSG` message on `topics[t]` with a zero durable
argument, and `MSG_TYPE()` on either delivered message is `t`. -/
theorem msg_kind_survives_heap_flag (topics : List (Option String)) (t : Int)
    (h : ASSERT_MSG t) :
    (M_PUB topics (DECLARE_HEAP_MSG t)).topic = topics_at topics t ∧
    (M_PUB topics (DECLARE_HEAP_MSG t)).autofree ≠ 0 ∧
    (M_PUB topics (DECLARE_MSG t)).topic = topics_at topics t ∧
    (M_PUB topics (DECLARE_MSG t)).autofree = 0 ∧
    MSG_TYPE (delivered (M_PUB topics (DECLARE_HEAP_MSG t))) = t ∧
    MSG_TYPE (delivered (M_PUB topics (DECLARE_MSG t))) = t := by
  obtain ⟨h0, h1⟩ := h
  obtain ⟨b1, b2, b3, b4⟩ := heap_flag_bits t h0 h1
  refine ⟨?_, ?_, ?_, ?_, ?_, ?_⟩
  · simp only [M_PUB, DECLARE_HEAP_MSG, b1]
  · simp only [M_PUB, DECLARE_HEAP_MSG, b2]
    decide
  · simp only [M_PUB, DECLARE_MSG, b3]
  · simp only [M_PUB, DECLARE_MSG, b4]
  · simp [MSG_TYPE, delivered, M_PUB, DECLARE_HEAP_MSG, b1]
  · simp [MSG_TYPE, delivered, M_PUB, DECLARE_MSG, b3]

/-- Example for C10: the kind `DISPLAY_REQ`, with a one-entry-per-kind table
whose entry 16 is "ReqDisplay". -/
theorem msg_kind_survives_heap_flag_witness :
    ASSERT_MSG DISPLAY_REQ ∧
    (M_PUB ((List.replicate 16 none) ++ [some "ReqDisplay"])
        (DECLARE_HEAP_MSG DISPLAY_REQ)).topic = some "ReqDisplay" ∧
    MSG_TYPE (delivered (M_PUB ((List.replicate 16 none) ++ [some "ReqDisplay"])
        (DECLARE_HEAP_MSG DISPLAY_REQ))) = DISPLAY_REQ :=
  have hA : ASSERT_MSG DISPLAY_REQ := by decide
  have h := msg_kind_survives_heap_flag ((List.replicate 16 none) ++ [some "ReqDisplay"])
    DISPLAY_REQ hA
  ⟨hA, h.1.trans (by decide), h.2.2.2.2.1⟩

/-! ## Timer subsystem: bounds on a reconfigured countdown -/

/-- C14: for C ints `old_timer > 0` and `new_timer > 0` and whatever the timer
reads (any integer, also a reading larger than `old_timer`): when the reading
is 0, `reset_timer` leaves the timer untouched (no `timerfd_settime` call, same
setting); when the reading `remaining` is not 0, it issues exactly one
`timerfd_settime`, which arms `new_timer - elapsed` seconds if
`new_timer > elapsed` and 1 nanosecond otherwise, where `elapsed` is
`old_timer - remaining` modulo 2^32; the armed `(sec, nsec)` is never `(0, 0)`,
the delay is at most `new_timer` seconds, and it is strictly shorter than
`new_timer` seconds when `0 < remaining < old_timer`. -/
theorem reset_timer_never_extends_nor_drops (t : timerfd) (fd old_timer new_timer : Int)
    (hold : is_int old_timer) (hnew : is_int new_timer)
    (hrunning : 0 < old_timer) (hpos : 0 < new_timer) :
    ((get_timeout_sec t fd).1 = 0 →
      (reset_timer t fd old_timer new_timer).calls = t.calls ∧
      (reset_timer t fd old_timer new_timer).setting = t.setting) ∧
    ((get_timeout_sec t fd).1 ≠ 0 →
      ∃ sec nsec : Int,
        sec = (if new_timer > to_uint (old_timer - (get_timeout_sec t fd).1)
               then new_timer - to_uint (old_timer - (get_timeout_sec t fd).1) else 0) ∧
        nsec = (if new_timer > to_uint (old_timer - (get_timeout_sec t fd).1)
                then 0 else 1) ∧
        (reset_timer t fd old_timer new_timer).calls = t.calls ++ [arm_call fd sec nsec] ∧
        (reset_timer t fd old_timer new_timer).setting
          = (if t.settime_r = -1 then t.setting
             else some (0, ⟨⟨0, 0⟩, ⟨sec, nsec⟩⟩)) ∧
        0 ≤ sec ∧ 0 ≤ nsec ∧ (sec ≠ 0 ∨ nsec ≠ 0) ∧
        sec * 1000000000 + nsec ≤ new_timer * 1000000000 ∧
        (0 < (get_timeout_sec t fd).1 → (get_timeout_sec t fd).1 < old_timer →
          sec * 1000000000 + nsec < new_timer * 1000000000)) := by
  have hc := get_timeout_sec_calls t fd
  have hO := hold.2
  have hN := hnew.2
  unfold INT_MAX at hO hN
  rcases hq : get_timeout_sec t fd with ⟨v, t1⟩
  rw [hq] at hc
  simp only at hc ⊢
  have hun : reset_timer t fd old_timer new_timer
      = if v = 0 ∧ new_timer > 0 then t1
        else if to_uint new_timer > to_uint (old_timer - v) then
          set_timeout t1 (to_int (to_uint (to_uint new_timer - to_uint (old_timer - v)))) 0 fd 0
        else if new_timer > 0 then set_timeout t1 0 1 fd 0
        else set_timeout t1 0 0 fd 0 := by
    unfold reset_timer
    rw [if_neg (by omega), hq]
  constructor
  · intro hv
    rw [hun, if_pos ⟨hv, hpos⟩]
    exact ⟨hc.1, hc.2.1⟩
  · intro hv
    have hne : ¬(v = 0 ∧ new_timer > 0) := fun h => hv h.1
    have e2 : to_uint new_timer = new_timer := by unfold to_uint; omega
    have he0 : 0 ≤ to_uint (old_timer - v) := by unfold to_uint; omega
    have hstrict : 0 < v → v < old_timer → 0 < to_uint (old_timer - v) := by
      intro h1 h2
      unfold to_uint; omega
    by_cases hgt : new_timer > to_uint (old_timer - v)
    · have e3 : to_uint (new_timer - to_uint (old_timer - v))
          = new_timer - to_uint (old_timer - v) := by
        generalize to_uint (old_timer - v) = e at he0 hgt
        unfold to_uint; omega
      have e4 : to_int (new_timer - to_uint (old_timer - v))
          = new_timer - to_uint (old_timer - v) := by
        apply to_int_of_is_int
        unfold is_int INT_MIN INT_MAX; omega
      have key : reset_timer t fd old_timer new_timer
          = set_timeout t1 (new_timer - to_uint (old_timer - v)) 0 fd 0 := by
        rw [hun, if_neg hne, e2, if_pos hgt, e3, e4]
      refine ⟨new_timer - to_uint (old_timer - v), 0, (if_pos hgt).symm, (if_pos hgt).symm,
        ?_, ?_, by omega, le_refl _, ?_, by omega, ?_⟩
      · rw [key, set_timeout_calls, hc.1, max_eq_left (by omega)]
        rfl
      · rw [key, set_timeout_setting, hc.2.1, hc.2.2, max_eq_left (by omega)]
      · left; omega
      · intro h1 h2
        have := hstrict h1 h2
        omega
    · have key : reset_timer t fd old_timer new_timer = set_timeout t1 0 1 fd 0 := by
        rw [hun, if_neg hne, e2, if_neg hgt, if_pos hpos]
      refine ⟨0, 1, (if_neg hgt).symm, (if_neg hgt).symm, ?_, ?_, le_refl _, by omega,
        by right; omega, by omega, ?_⟩
      · rw [key, set_timeout_calls, hc.1, max_eq_left (le_refl (0 : Int))]
        rfl
      · rw [key, set_timeout_setting, hc.2.1, hc.2.2, max_eq_left (le_refl (0 : Int))]
      · intro _ _
        omega

/-- Examples for C14: old 60 s, 20 s left, new 5 s: the elapsed 40 s exceed the
new window, the timer is rearmed for 1 ns and does not keep its 20 s; old 60 s,
an inconsistent reading of 100 s, new 50 s: the elapsed time wraps to
2^32 - 40 and the timer is armed for 1 ns. -/
theorem reset_timer_never_extends_nor_drops_witness :
    (reset_timer (timer_reading 20 0) 3 60 5).calls
      = (timer_reading 20 0).calls ++ [arm_call 3 0 1] ∧
    (reset_timer (timer_reading 100 0) 3 60 50).calls
      = (timer_reading 100 0).calls ++ [arm_call 3 0 1] :=
  have h1 := (reset_timer_never_extends_nor_drops (timer_reading 20 0) 3 60 5
    (by decide) (by decide) (by decide) (by decide)).2 (by decide)
  have h2 := (reset_timer_never_extends_nor_drops (timer_reading 100 0) 3 60 50
    (by decide) (by decide) (by decide) (by decide)).2 (by decide)
  ⟨by
      obtain ⟨sec, nsec, hs, hn, hcalls, _⟩ := h1
      rw [hcalls, hs, hn]
      decide,
   by
      obtain ⟨sec, nsec, hs, hn, hcalls, _⟩ := h2
      rw [hcalls, hs, hn]
      decide⟩

/-! ## The topic table after `init_topics` -/

theorem array_get_set_eq (a : List Int) (i v : Int) (h0 : 0 ≤ i) (h1 : i.toNat < a.length) :
    array_get (array_set a i v) i = v := by
  unfold array_get array_set
  rw [if_pos h0, if_pos h0]
  simp [List.getD_eq_getElem?_getD, List.getElem?_set, h1]

theorem array_get_set_ne (a : List Int) (i j v : Int) (h : j ≠ i) :
    array_get (array_set a i v) j = array_get a j := by
  unfold array_get array_set
  by_cases h0 : 0 ≤ i
  · rw [if_pos h0]
    by_cases hj : 0 ≤ j
    · rw [if_pos hj, if_pos hj]
      have hne : i.toNat ≠ j.toNat := by omega
      simp [List.getD_eq_getElem?_getD, List.getElem?_set, hne]
    · rw [if_neg hj, if_neg hj]
  · rw [if_neg h0]

theorem dpms_to_req_accepted (ext : dpms_ext) (m : dpms_t) (msg : msg_t)
    (hv : ext.VALIDATE_REQ m.dpms_conf m.state msg.ps_msg.message.to_ = true) :
    dpms_to_req ext m msg
      = { m with
          dpms_conf := { m.dpms_conf with
            timeout := array_set m.dpms_conf.timeout msg.ps_msg.message.to_.state
              msg.ps_msg.message.to_.new }
          trace := if msg.ps_msg.message.to_.state = m.state.ac_state then
              m.trace ++ [dpms_action.idle_set_timeout
                (array_get (array_set m.dpms_conf.timeout msg.ps_msg.message.to_.state
                  msg.ps_msg.message.to_.new) m.state.ac_state)]
            else m.trace } := by
  unfold dpms_to_req
  simp only [hv, if_true]
  split
  · rfl
  · rfl

/-- C12: for a `DPMS_TO_REQ` message whose requested ac state `up->state` is
`ON_AC` or `ON_BATTERY` (with `timeout` an array of `SIZE_AC` entries),
`receive` and `receive_inhibited` do the same, and: if `VALIDATE_REQ(up)`
accepts, `conf.dpms_conf.timeout[up->state]` becomes `up->new`, every other
entry keeps its value, `state` and the behavior stack are untouched, and
`idle_set_timeout` is called, with `up->new`, exactly when `up->state` is
`state.ac_state` (otherwise nothing is done); if `VALIDATE_REQ(up)` rejects,
nothing changes and nothing is done. -/
theorem dpms_to_req_sets_requested_timeout (ext : dpms_ext) (m : dpms_t) (msg : msg_t)
    (hkind : MSG_TYPE msg = DPMS_TO_REQ)
    (hlen : (m.dpms_conf.timeout.length : Int) = SIZE_AC)
    (hstate : msg.ps_msg.message.to_.state = ON_AC ∨
      msg.ps_msg.message.to_.state = ON_BATTERY) :
    receive_inhibited ext m msg = receive ext m msg ∧
    (ext.VALIDATE_REQ m.dpms_conf m.state msg.ps_msg.message.to_ = true →
      array_get (receive ext m msg).dpms_conf.timeout msg.ps_msg.message.to_.state
        = msg.ps_msg.message.to_.new ∧
      (∀ j : Int, j ≠ msg.ps_msg.message.to_.state →
        array_get (receive ext m msg).dpms_conf.timeout j
          = array_get m.dpms_conf.timeout j) ∧
      (receive ext m msg).state = m.state ∧
      (receive ext m msg).recvs = m.recvs ∧
      (msg.ps_msg.message.to_.state = m.state.ac_state →
        (receive ext m msg).trace
          = m.trace ++ [dpms_action.idle_set_timeout msg.ps_msg.message.to_.new]) ∧
      (msg.ps_msg.message.to_.state ≠ m.state.ac_state →
        (receive ext m msg).trace = m.trace)) ∧
    (ext.VALIDATE_REQ m.dpms_conf m.state msg.ps_msg.message.to_ = false →
      receive ext m msg = m) := by
  have hrecv : receive ext m msg = dpms_to_req ext m msg := by
    unfold receive
    rw [hkind, if_neg (by decide), if_neg (by decide), if_neg (by decide), if_pos rfl]
  have hinh : receive_inhibited ext m msg = dpms_to_req ext m msg := by
    unfold receive_inhibited
    rw [hkind, if_neg (by decide), if_neg (by decide), if_neg (by decide), if_pos rfl]
  have hidx : 0 ≤ msg.ps_msg.message.to_.state ∧
      msg.ps_msg.message.to_.state.toNat < m.dpms_conf.timeout.length := by
    unfold SIZE_AC at hlen
    unfold ON_AC ON_BATTERY at hstate
    omega
  refine ⟨by rw [hrecv, hinh], ?_, ?_⟩
  · intro hv
    rw [hrecv, dpms_to_req_accepted ext m msg hv]
    refine ⟨array_get_set_eq _ _ _ hidx.1 hidx.2, ?_, rfl, rfl, ?_, ?_⟩
    · intro j hj
      exact array_get_set_ne _ _ _ _ hj
    · intro heq
      simp only [if_pos heq]
      rw [← heq, array_get_set_eq _ _ _ hidx.1 hidx.2]
    · intro hne
      simp only [if_neg hne]
  · intro hv
    rw [hrecv]
    unfold dpms_to_req
    simp [hv]

/-- Example for C12: on AC with timeouts 600 s / 300 s, the accepted request
"120 s on AC" stores 120 and reprograms the idle client with 120; the same
request, rejected, changes nothing. -/
theorem dpms_to_req_sets_requested_timeout_witness :
    (receive ext_ok (dpms_default conf_example (state_example false false))
        (delivered ⟨none, { type := DPMS_TO_REQ, to_ := ⟨120, ON_AC, 0⟩, display := ⟨0, 0⟩ }, 0⟩)).trace
      = [dpms_action.idle_set_timeout 120] ∧
    receive ext_reject (dpms_default conf_example (state_example false false))
        (delivered ⟨none, { type := DPMS_TO_REQ, to_ := ⟨120, ON_AC, 0⟩, display := ⟨0, 0⟩ }, 0⟩)
      = dpms_default conf_example (state_example false false) :=
  ⟨((dpms_to_req_sets_requested_timeout ext_ok
      (dpms_default conf_example (state_example false false))
      (delivered ⟨none, { type := DPMS_TO_REQ, to_ := ⟨120, ON_AC, 0⟩, display := ⟨0, 0⟩ }, 0⟩)
      (by decide) (by decide) (by decide)).2.1 (by decide)).2.2.2.2.1 (by decide),
   (dpms_to_req_sets_requested_timeout ext_reject
      (dpms_default conf_example (state_example false false))
      (delivered ⟨none, { type := DPMS_TO_REQ, to_ := ⟨120, ON_AC, 0⟩, display := ⟨0, 0⟩ }, 0⟩)
      (by decide) (by decide) (by decide)).2.2 (by decide)⟩

/-! ## DPMS module: idle notifications -/

theorem on_new_idle_dropped (topics : List (Option String)) (state_dpy : Option String)
    (state : state_t) (display_req : message_t) (m : sd_bus_message)
    (h : ¬ notification_accepted state_dpy m) :
    on_new_idle topics state_dpy state display_req m
      = { ret := 0, display_req := display_req, published := [] } := by
  rcases m with ⟨member, display, level, idle⟩
  unfold notification_accepted displays_agree at h
  simp only [not_or, not_not] at h
  obtain ⟨hm, h1, h2⟩ := h
  unfold on_new_idle
  simp only [hm, if_true]
  cases display with
  | none =>
    cases state_dpy with
    | none => exact absurd ⟨rfl, rfl⟩ h1
    | some sd => simp
  | some d =>
    cases state_dpy with
    | none => simp
    | some sd =>
      have hne : d ≠ sd := fun e => h2 ⟨d, rfl, by rw [e]⟩
      simp [hne]

theorem on_new_idle_accepted (topics : List (Option String)) (state_dpy : Option String)
    (state : state_t) (display_req : message_t) (m : sd_bus_message)
    (h : notification_accepted state_dpy m) :
    on_new_idle topics state_dpy state display_req m
      = { ret := 0
          display_req := { display_req with display :=
            ⟨state.display_state, if notification_idle m then DISPLAY_OFF else DISPLAY_ON⟩ }
          published := [M_PUB topics { display_req with display :=
            ⟨state.display_state, if notification_idle m then DISPLAY_OFF else DISPLAY_ON⟩ }] } := by
  rcases m with ⟨member, display, level, idle⟩
  unfold notification_accepted displays_agree at h
  unfold on_new_idle notification_idle
  by_cases hm : member = "Changed"
  · simp only [hm, if_true, ne_eq, not_true_eq_false, false_or] at h ⊢
    rcases h with ⟨h1, h2⟩ | ⟨d, h1, h2⟩
    · subst h1; subst h2
      by_cases hl : level > 0 <;> simp [hl]
    · subst h1; subst h2
      by_cases hl : level > 0 <;> simp [hl]
  · simp only [hm, if_false]
    cases idle <;> simp

/-- C15: with `display_req` the static `DISPLAY_REQ` message, `on_new_idle`
returns 0 and: an accepted notification (any member other than `Changed`, or a
`Changed` signal whose display and the display of the session are both absent
or both present and equal) makes exactly one `m_publish`, on
`topics[DISPLAY_REQ]`, not durable, of a request with `old = state.display_state`
and `new = DISPLAY_OFF` when the notification is idle (`level > 0` for
`Changed`, the boolean payload otherwise), `new = DISPLAY_ON` when it is not;
any other `Changed` signal publishes nothing and leaves `display_req` as it was;
no published request has `new = DISPLAY_DIMMED`. -/
theorem on_new_idle_publishes_one_display_req (topics : List (Option String))
    (state_dpy : Option String) (state : state_t) (display_req : message_t)
    (m : sd_bus_message) (htype : display_req.type = DISPLAY_REQ) :
    (on_new_idle topics state_dpy state display_req m).ret = 0 ∧
    (notification_accepted state_dpy m →
      (on_new_idle topics state_dpy state display_req m).published
        = [{ topic := topics_at topics DISPLAY_REQ
             msg := { type := DISPLAY_REQ
                      to_ := display_req.to_
                      display := ⟨state.display_state,
                        if notification_idle m then DISPLAY_OFF else DISPLAY_ON⟩ }
             autofree := 0 }]) ∧
    (¬ notification_accepted state_dpy m →
      (on_new_idle topics state_dpy state display_req m).published = [] ∧
      (on_new_idle topics state_dpy state display_req m).display_req = display_req) ∧
    (∀ c ∈ (on_new_idle topics state_dpy state display_req m).published,
      c.msg.type = DISPLAY_REQ ∧ c.msg.display.old = state.display_state ∧
      c.msg.display.new ≠ DISPLAY_DIMMED) := by
  have b1 : Int.land DISPLAY_REQ MSG_FLAGS_MASK = DISPLAY_REQ := by decide
  have b2 : Int.land DISPLAY_REQ MSG_FLAG_HEAP = 0 := by decide
  rcases display_req with ⟨ty, to_upd, disp⟩
  simp only at htype
  subst htype
  by_cases hacc : notification_accepted state_dpy m
  · have key := on_new_idle_accepted topics state_dpy state ⟨DISPLAY_REQ, to_upd, disp⟩ m hacc
    rw [key]
    refine ⟨rfl, ?_, fun hn => absurd hacc hn, ?_⟩
    · intro _
      simp only [M_PUB, b1, b2]
    · intro c hc
      simp only [List.mem_singleton] at hc
      subst hc
      refine ⟨rfl, rfl, ?_⟩
      simp only [M_PUB]
      split <;> decide
  · have key := on_new_idle_dropped topics state_dpy state ⟨DISPLAY_REQ, to_upd, disp⟩ m hacc
    rw [key]
    refine ⟨rfl, fun h => absurd h hacc, fun _ => ⟨rfl, rfl⟩, ?_⟩
    intro c hc
    simp at hc

/-- Examples for C15: an idle `Changed` signal for the display of the session is
published as `DISPLAY_OFF`; a `Changed` signal for another display is dropped. -/
theorem on_new_idle_publishes_one_display_req_witness :
    (on_new_idle (List.replicate 16 none ++ [some "ReqDisplay"]) (some ":0")
        (state_example false false) (DECLARE_MSG DISPLAY_REQ)
        ⟨"Changed", some ":0", 1, false⟩).published
      = [{ topic := some "ReqDisplay"
           msg := { type := DISPLAY_REQ, to_ := ⟨0, 0, 0⟩, display := ⟨DISPLAY_ON, DISPLAY_OFF⟩ }
           autofree := 0 }] ∧
    (on_new_idle (List.replicate 16 none ++ [some "ReqDisplay"]) (some ":0")
        (state_example false false) (DECLARE_MSG DISPLAY_REQ)
        ⟨"Changed", some ":1", 1, false⟩).published = [] :=
  ⟨((on_new_idle_publishes_one_display_req (List.replicate 16 none ++ [some "ReqDisplay"])
      (some ":0") (state_example false false) (DECLARE_MSG DISPLAY_REQ)
      ⟨"Changed", some ":0", 1, false⟩ rfl).2.1 (Or.inr (Or.inr ⟨":0", rfl, rfl⟩))).trans
      (by decide),
   ((on_new_idle_publishes_one_display_req (List.replicate 16 none ++ [some "ReqDisplay"])
      (some ":0") (state_example false false) (DECLARE_MSG DISPLAY_REQ)
      ⟨"Changed", some ":1", 1, false⟩ rfl).2.2.1 (by
        unfold notification_accepted displays_agree
        simp)).1⟩

/-! ## DPMS module: the idle client under pause signals -/

theorem inhibit_callback_state (m : dpms_t) (pause : Bool) :
    (inhibit_callback m pause).state = m.state := by
  unfold inhibit_callback
  cases pause <;> rfl

theorem store_flag_flags (m : dpms_t) (s : pause_signal) :
    ((store_flag m s).state.inhibited, (store_flag m s).state.suspended)
      = flags_step (m.state.inhibited, m.state.suspended) s := by
  rcases s with ⟨k, f⟩
  cases k <;> rfl

theorem deliver_signal_flags (ext : dpms_ext) (m : dpms_t) (s : pause_signal) (n : Nat)
    (hp : m.poisoned = false) (hr : m.recvs = List.replicate n behavior.inhibited) :
    ((deliver_signal ext m s).state.inhibited, (deliver_signal ext m s).state.suspended)
      = flags_step (m.state.inhibited, m.state.suspended) s := by
  rw [deliver_signal_eq ext m s n hp hr, inhibit_callback_state]
  exact store_flag_flags m s

theorem client_running_append (b : Bool) (xs ys : List dpms_action) :
    client_running b (xs ++ ys) = client_running (client_running b xs) ys := by
  unfold client_running
  rw [List.foldl_append]

/-- After a signal the idle client is stopped exactly when the signal was a
pause, whatever the other flag is. -/
theorem deliver_signal_client (ext : dpms_ext) (m : dpms_t) (s : pause_signal) (n : Nat)
    (hp : m.poisoned = false) (hr : m.recvs = List.replicate n behavior.inhibited)
    (b : Bool) :
    client_running b (deliver_signal ext m s).trace = !s.flag := by
  rcases s with ⟨k, f⟩
  cases f with
  | true =>
    rw [(deliver_signal_pause ext m ⟨k, true⟩ n hp hr rfl).2.2, client_running_append]
    rfl
  | false =>
    rw [(deliver_signal_resume ext m ⟨k, false⟩ n hp hr rfl).2.2, client_running_append]
    rfl

theorem deliver_signals_append (ext : dpms_ext) (m : dpms_t) (xs ys : List pause_signal) :
    deliver_signals ext m (xs ++ ys) = deliver_signals ext (deliver_signals ext m xs) ys := by
  unfold deliver_signals
  rw [List.foldl_append]

theorem flags_after_append (xs ys : List pause_signal) (f : Bool × Bool) :
    flags_after (xs ++ ys) f = flags_after ys (flags_after xs f) := by
  unfold flags_after
  rw [List.foldl_append]

/-- One step of an exclusive sequence: the flags stay exclusive, and a flag is
true afterwards only if the signal was a pause. -/
theorem flags_exclusive_step (s : pause_signal) (ss : List pause_signal) (f : Bool × Bool)
    (hf : (f.1 && f.2) = false) (hex : flags_exclusive (s :: ss) f = true) :
    ((flags_step f s).1 && (flags_step f s).2) = false ∧
    flags_exclusive ss (flags_step f s) = true ∧
    (((flags_step f s).1 || (flags_step f s).2) = true → s.flag = true) ∧
    (s.flag = true → (f.1 || f.2) = false) ∧
    (s.flag = false → (f.1 || f.2) = true ∧ ((flags_step f s).1 || (flags_step f s).2) = false) := by
  rcases s with ⟨k, fl⟩
  rcases f with ⟨i, u⟩
  cases k <;> cases fl <;> cases i <;> cases u <;>
    simp_all [flags_exclusive, flags_step]

/-- Invariant of an exclusive run: the flags of `state` follow the signals, and
the behavior stack holds `inhibited` exactly while a flag is true. -/
theorem deliver_signals_exclusive (ext : dpms_ext) (sigs : List pause_signal) :
    ∀ (m : dpms_t) (f : Bool × Bool),
      m.poisoned = false →
      (m.state.inhibited, m.state.suspended) = f →
      (f.1 && f.2) = false →
      m.recvs = List.replicate (if (f.1 || f.2) = true then 1 else 0) behavior.inhibited →
      flags_exclusive sigs f = true →
      (deliver_signals ext m sigs).poisoned = false ∧
      ((deliver_signals ext m sigs).state.inhibited,
        (deliver_signals ext m sigs).state.suspended) = flags_after sigs f ∧
      ((flags_after sigs f).1 && (flags_after sigs f).2) = false ∧
      (deliver_signals ext m sigs).recvs
        = List.replicate (if ((flags_after sigs f).1 || (flags_after sigs f).2) = true
            then 1 else 0) behavior.inhibited := by
  induction sigs with
  | nil =>
    intro m f hp hst hf hr _
    exact ⟨hp, hst, hf, hr⟩
  | cons s ss ih =>
    intro m f hp hst hf hr hex
    obtain ⟨h1, h2, h3, h4, h5⟩ := flags_exclusive_step s ss f hf hex
    rw [deliver_signals_cons]
    have hfl := deliver_signal_flags ext m s _ hp hr
    rw [hst] at hfl
    have hstep : (deliver_signal ext m s).poisoned = false ∧
        (deliver_signal ext m s).recvs
          = List.replicate (if ((flags_step f s).1 || (flags_step f s).2) = true then 1 else 0)
              behavior.inhibited := by
      cases hflag : s.flag with
      | true =>
        obtain ⟨a, b, _⟩ := deliver_signal_pause ext m s _ hp hr hflag
        have h0 := h4 hflag
        have hone : ((flags_step f s).1 || (flags_step f s).2) = true := by
          rcases s with ⟨k, fl⟩
          simp only at hflag
          subst hflag
          cases k <;> simp [flags_step]
        refine ⟨a, ?_⟩
        rw [b, h0, hone]
        rfl
      | false =>
        obtain ⟨a, b, _⟩ := deliver_signal_resume ext m s _ hp hr hflag
        obtain ⟨h0, hzero⟩ := h5 hflag
        refine ⟨a, ?_⟩
        rw [b, h0, hzero]
        rfl
    have := ih (deliver_signal ext m s) (flags_step f s) hstep.1 hfl h1 hstep.2 h2
    simpa [flags_after] using this

theorem flags_exclusive_append (xs ys : List pause_signal) (f : Bool × Bool)
    (hf : (f.1 && f.2) = false) (hex : flags_exclusive (xs ++ ys) f = true) :
    flags_exclusive xs f = true ∧ flags_exclusive ys (flags_after xs f) = true ∧
    ((flags_after xs f).1 && (flags_after xs f).2) = false := by
  induction xs generalizing f with
  | nil => exact ⟨rfl, hex, hf⟩
  | cons x xs ih =>
    obtain ⟨h1, h2, _⟩ := flags_exclusive_step x (xs ++ ys) f hf hex
    obtain ⟨a, b, c⟩ := ih (flags_step f x) h1 h2
    refine ⟨?_, by simpa [flags_after] using b, by simpa [flags_after] using c⟩
    have hx : flags_exclusive (x :: (xs ++ ys)) f = true := hex
    unfold flags_exclusive at hx ⊢
    simp only [Bool.and_eq_true] at hx ⊢
    exact ⟨hx.1, a⟩

/-- C16 as stated fails when the flags overlap: inhibit, suspend, resume from
suspend. After the third message `state.inhibited` is still true and
`receive_inhibited` is still the active behavior, but the most recent
start/stop action is the `idle_client_start` of the resume: the client runs. -/
theorem dpms_overlapping_resume_restarts_client :
    (deliver_signals ext_ok (dpms_default conf_example (state_example false false))
      [⟨pause_kind.inhibit, true⟩, ⟨pause_kind.suspend, true⟩,
       ⟨pause_kind.suspend, false⟩]).state.inhibited = true ∧
    (deliver_signals ext_ok (dpms_default conf_example (state_example false false))
      [⟨pause_kind.inhibit, true⟩, ⟨pause_kind.suspend, true⟩,
       ⟨pause_kind.suspend, false⟩]).recvs = [behavior.inhibited] ∧
    (deliver_signals ext_ok (dpms_default conf_example (state_example false false))
      [⟨pause_kind.inhibit, true⟩, ⟨pause_kind.suspend, true⟩,
       ⟨pause_kind.suspend, false⟩]).trace
      = [dpms_action.DEBUG_pausing, dpms_action.idle_client_stop,
         dpms_action.m_become behavior.inhibited,
         dpms_action.DEBUG_pausing, dpms_action.idle_client_stop,
         dpms_action.m_become behavior.inhibited,
         dpms_action.DEBUG_resuming, dpms_action.idle_client_start 600,
         dpms_action.m_unbecome] ∧
    client_running true
      (deliver_signals ext_ok (dpms_default conf_example (state_example false false))
        [⟨pause_kind.inhibit, true⟩, ⟨pause_kind.suspend, true⟩,
         ⟨pause_kind.suspend, false⟩]).trace = true := by
  decide

/-- C16, amended: from the default behavior of a running module with both flags
false, for every sequence of `INHIBIT_UPD` / `SUSPEND_UPD` signals in which each
signal changes its own flag and the two flags are never true together: after
each message, whenever one of the two flags is true, the most recent
`idle_client_start` / `idle_client_stop` action is a stop (the client does not
run, whatever it did before), and a flag is true exactly when
`receive_inhibited` is the active behavior. -/
theorem dpms_client_stopped_while_paused (ext : dpms_ext) (m : dpms_t)
    (sigs : List pause_signal)
    (hdefault : m.recvs = []) (hrunning : m.poisoned = false)
    (hinh : m.state.inhibited = false) (hsus : m.state.suspended = false)
    (hex : flags_exclusive sigs (false, false) = true) :
    ∀ (pre : List pause_signal) (s : pause_signal) (post : List pause_signal),
      sigs = pre ++ s :: post →
      (((deliver_signals ext m (pre ++ [s])).state.inhibited = true ∨
        (deliver_signals ext m (pre ++ [s])).state.suspended = true) →
        ∀ b : Bool, client_running b (deliver_signals ext m (pre ++ [s])).trace = false) ∧
      (((deliver_signals ext m (pre ++ [s])).state.inhibited = true ∨
        (deliver_signals ext m (pre ++ [s])).state.suspended = true) ↔
        (deliver_signals ext m (pre ++ [s])).recvs = [behavior.inhibited]) := by
  intro pre s post hsplit
  subst hsplit
  have hst : (m.state.inhibited, m.state.suspended) = (false, false) := by
    rw [hinh, hsus]
  obtain ⟨hpre, hrest, hfpre⟩ := flags_exclusive_append pre (s :: post) (false, false) rfl hex
  obtain ⟨q1, q2, _, q4⟩ :=
    deliver_signals_exclusive ext pre m (false, false) hrunning hst rfl
      (by rw [hdefault]; rfl) hpre
  obtain ⟨e1, _, e3, _, _⟩ := flags_exclusive_step s post (flags_after pre (false, false)) hfpre hrest
  have hfl := deliver_signal_flags ext (deliver_signals ext m pre) s _ q1 q4
  rw [q2] at hfl
  have hcl := deliver_signal_client ext (deliver_signals ext m pre) s _ q1 q4
  have hrun : deliver_signals ext m (pre ++ [s])
      = deliver_signal ext (deliver_signals ext m pre) s := by
    rw [deliver_signals_append]
    rfl
  have hrecvs : (deliver_signal ext (deliver_signals ext m pre) s).recvs
      = List.replicate (if ((flags_step (flags_after pre (false, false)) s).1 ||
          (flags_step (flags_after pre (false, false)) s).2) = true then 1 else 0)
          behavior.inhibited := by
    have hall : flags_exclusive (pre ++ [s]) (false, false) = true := by
      have h := flags_exclusive_append (pre ++ [s]) post (false, false) rfl
        (by simpa using hex)
      exact h.1
    have h := deliver_signals_exclusive ext (pre ++ [s]) m (false, false) hrunning hst rfl
      (by rw [hdefault]; rfl) hall
    rw [hrun] at h
    rw [h.2.2.2, flags_after_append]
    rfl
  rw [hrun]
  have hflag_iff : ((deliver_signal ext (deliver_signals ext m pre) s).state.inhibited = true ∨
      (deliver_signal ext (deliver_signals ext m pre) s).state.suspended = true) ↔
      ((flags_step (flags_after pre (false, false)) s).1 ||
        (flags_step (flags_after pre (false, false)) s).2) = true := by
    rw [← hfl]
    simp
  constructor
  · intro hor b
    have hs := e3 (hflag_iff.mp hor)
    rw [hcl b, hs]
    rfl
  · rw [hflag_iff, hrecvs]
    constructor
    · intro h
      rw [if_pos h]
      rfl
    · intro h
      by_contra hne
      rw [if_neg hne] at h
      simp at h

/-- Example for C16: inhibit, uninhibit, suspend: after the third message the
suspended flag is true and the client is stopped. -/
theorem dpms_client_stopped_while_paused_witness :
    client_running true
      (deliver_signals ext_ok (dpms_default conf_example (state_example false false))
        ([⟨pause_kind.inhibit, true⟩, ⟨pause_kind.inhibit, false⟩]
          ++ [⟨pause_kind.suspend, true⟩])).trace = false ∧
    (deliver_signals ext_ok (dpms_default conf_example (state_example false false))
        ([⟨pause_kind.inhibit, true⟩, ⟨pause_kind.inhibit, false⟩]
          ++ [⟨pause_kind.suspend, true⟩])).recvs = [behavior.inhibited] :=
  have h := dpms_client_stopped_while_paused ext_ok
    (dpms_default conf_example (state_example false false))
    [⟨pause_kind.inhibit, true⟩, ⟨pause_kind.inhibit, false⟩, ⟨pause_kind.suspend, true⟩,
     ⟨pause_kind.suspend, false⟩]
    (by decide) (by decide) (by decide) (by decide) (by decide)
    [⟨pause_kind.inhibit, true⟩, ⟨pause_kind.inhibit, false⟩] ⟨pause_kind.suspend, true⟩
    [⟨pause_kind.suspend, false⟩] (by decide)
  ⟨h.1 (Or.inr (by decide)) true, h.2.mp (Or.inr (by decide))⟩

/-! ## The message bus: delivery order -/

theorem deliver_to_spec (behave : Nat → Nat → msg_t → List Nat → List Nat) (msg : msg_t)
    (b : bus) (k : Nat) (hk : k < b.modules.length) :
    (deliver_to behave msg b k).modules.length = b.modules.length ∧
    ∃ a, active_of b k = some a ∧
      (deliver_to behave msg b k).invoked = b.invoked ++ [⟨k, a, msg⟩] := by
  unfold deliver_to active_of
  have hget : b.modules[k]? = some (b.modules.get ⟨k, hk⟩) := by
    simp [List.getElem?_eq_getElem hk]
  rw [hget]
  exact ⟨by simp, active_recv (b.modules.get ⟨k, hk⟩), rfl, rfl⟩

/-- Delivery to a list of modules: one invocation per entry, in the order of the
list, each of the behavior that is active when its turn comes. -/
theorem deliver_all_spec (behave : Nat → Nat → msg_t → List Nat → List Nat) (msg : msg_t)
    (L : List Nat) :
    ∀ b : bus, (∀ k ∈ L, k < b.modules.length) →
      ∃ tr : List invocation,
        (L.foldl (deliver_to behave msg) b).invoked = b.invoked ++ tr ∧
        tr.map (fun v => v.mod_id) = L ∧
        ∀ (k M : Nat), L[k]? = some M →
          ∃ a, active_of ((L.take k).foldl (deliver_to behave msg) b) M = some a ∧
            tr[k]? = some ⟨M, a, msg⟩ := by
  induction L with
  | nil =>
    intro b _
    exact ⟨[], by simp, rfl, by simp⟩
  | cons M0 L ih =>
    intro b hb
    have h0 : M0 < b.modules.length := hb M0 (List.mem_cons_self _ _)
    obtain ⟨hlen, a0, ha0, hinv⟩ := deliver_to_spec behave msg b M0 h0
    have hb1 : ∀ k ∈ L, k < (deliver_to behave msg b M0).modules.length := by
      intro k hk
      rw [hlen]
      exact hb k (List.mem_cons_of_mem _ hk)
    obtain ⟨tr, h1, h2, h3⟩ := ih (deliver_to behave msg b M0) hb1
    refine ⟨⟨M0, a0, msg⟩ :: tr, ?_, ?_, ?_⟩
    · rw [List.foldl_cons, h1, hinv, List.append_assoc]
      rfl
    · rw [List.map_cons, h2]
    · intro k M hk
      cases k with
      | zero =>
        simp only [List.getElem?_cons_zero, Option.some.injEq] at hk
        subst hk
        exact ⟨a0, ha0, by simp⟩
      | succ j =>
        simp only [List.getElem?_cons_succ] at hk
        obtain ⟨a, h4, h5⟩ := h3 j M hk
        exact ⟨a, by simpa [List.take_succ_cons] using h4, by simpa using h5⟩

theorem register_all_subs (b : bus) (regs : List (Nat × String)) :
    (register_all b regs).subs = b.subs ++ regs ∧
    (register_all b regs).modules = b.modules ∧
    (register_all b regs).invoked = b.invoked := by
  induction regs generalizing b with
  | nil => simp [register_all]
  | cons r rs ih =>
    obtain ⟨h1, h2, h3⟩ := ih (m_subscribe b r.1 (some r.2))
    unfold register_all at h1 h2 h3 ⊢
    rw [List.foldl_cons, h1, h2, h3]
    simp [m_subscribe]

/-- C13, on the bus as the spec describes it: for every topic `T`, after the
registrations `regs` made in that order by modules of the bus, the subscribers
of `T` are the modules registered on `T`, in registration order, and one
`M_PUB` of a message whose topic is `T` adds exactly one invocation per
subscriber, in that order, each of the behavior that is on top of the behavior
stack of the subscriber when its turn comes, all with the published message;
the result of `m_publish` is the bus after the last of these deliveries. -/
theorem m_publish_invokes_subscribers_in_order
    (behave : Nat → Nat → msg_t → List Nat → List Nat) (b0 : bus)
    (regs : List (Nat × String)) (topics : List (Option String)) (ptr : message_t)
    (T : String)
    (hempty : b0.subs = [])
    (hmods : ∀ r ∈ regs, r.1 < b0.modules.length)
    (htopic : (M_PUB topics ptr).topic = some T) :
    subscribers (register_all b0 regs) T
      = (regs.filter (fun r => r.2 = T)).map (fun r => r.1) ∧
    m_publish behave (register_all b0 regs) (M_PUB topics ptr)
      = (subscribers (register_all b0 regs) T).foldl
          (deliver_to behave (delivered (M_PUB topics ptr))) (register_all b0 regs) ∧
    ∃ tr : List invocation,
      (m_publish behave (register_all b0 regs) (M_PUB topics ptr)).invoked
        = b0.invoked ++ tr ∧
      tr.map (fun v => v.mod_id) = subscribers (register_all b0 regs) T ∧
      ∀ (k M : Nat), (subscribers (register_all b0 regs) T)[k]? = some M →
        ∃ a, active_of
              (((subscribers (register_all b0 regs) T).take k).foldl
                (deliver_to behave (delivered (M_PUB topics ptr))) (register_all b0 regs)) M
            = some a ∧
          tr[k]? = some ⟨M, a, delivered (M_PUB topics ptr)⟩ := by
  obtain ⟨hsubs, hmodules, hinvoked⟩ := register_all_subs b0 regs
  rw [hempty, List.nil_append] at hsubs
  have hsub : subscribers (register_all b0 regs) T
      = (regs.filter (fun r => r.2 = T)).map (fun r => r.1) := by
    unfold subscribers
    rw [hsubs]
  have hpub : m_publish behave (register_all b0 regs) (M_PUB topics ptr)
      = (subscribers (register_all b0 regs) T).foldl
          (deliver_to behave (delivered (M_PUB topics ptr))) (register_all b0 regs) := by
    unfold m_publish
    rw [htopic]
  have hknown : ∀ k ∈ subscribers (register_all b0 regs) T,
      k < (register_all b0 regs).modules.length := by
    intro k hk
    rw [hsub] at hk
    rw [hmodules]
    obtain ⟨r, hr, hrk⟩ := List.mem_map.mp hk
    rw [← hrk]
    exact hmods r (List.mem_filter.mp hr).1
  obtain ⟨tr, h1, h2, h3⟩ :=
    deliver_all_spec behave (delivered (M_PUB topics ptr))
      (subscribers (register_all b0 regs) T) (register_all b0 regs) hknown
  refine ⟨hsub, hpub, tr, ?_, h2, h3⟩
  rw [hpub, h1, hinvoked]

/-- Example for C13: module 2, then 0, then 1 subscribe to "AcState" (module 0
also to "Inhibited"); one publish of `UPOWER_UPD` invokes the default of
module 2, the pushed behavior of module 0 and the default of module 1, in
that order. -/
theorem m_publish_invokes_subscribers_in_order_witness :
    subscribers (register_all bus_example
        [(2, "AcState"), (0, "Inhibited"), (0, "AcState"), (1, "AcState")]) "AcState"
      = [2, 0, 1] ∧
    (m_publish behave_pop (register_all bus_example
        [(2, "AcState"), (0, "Inhibited"), (0, "AcState"), (1, "AcState")])
        (M_PUB [none, some "AcState"] (DECLARE_MSG UPOWER_UPD))).invoked
      = [⟨2, 30, delivered (M_PUB [none, some "AcState"] (DECLARE_MSG UPOWER_UPD))⟩,
         ⟨0, 11, delivered (M_PUB [none, some "AcState"] (DECLARE_MSG UPOWER_UPD))⟩,
         ⟨1, 20, delivered (M_PUB [none, some "AcState"] (DECLARE_MSG UPOWER_UPD))⟩] :=
  ⟨(m_publish_invokes_subscribers_in_order behave_pop bus_example
      [(2, "AcState"), (0, "Inhibited"), (0, "AcState"), (1, "AcState")]
      [none, some "AcState"] (DECLARE_MSG UPOWER_UPD) "AcState"
      (by decide) (by decide) (by decide)).1.trans (by decide),
   by decide⟩

end Clight
